import Mathlib

set_option maxRecDepth 4000000

/-!
# Verification of the `smart-suggestion` privacy filter (`pkg/privacy/filter.go`)
and of the spec-described log rotator.

Strings are modelled as `List Char`.  Go's `regexp` library (RE2 with
Perl-style leftmost-first match selection) is modelled by a small regex AST
together with a prioritized backtracking matcher: alternation prefers the
left branch, quantifiers are greedy, and the selected match is the leftmost
one, exactly the semantics Go documents for non-POSIX regexps.
`ReplaceAllString` is modelled including Go's handling of empty matches
(an empty match immediately following a previous match is skipped).
Replacement strings are inserted literally; no replacement string used in
the repository contains a `$` template reference.
-/

namespace SmartSuggestion

/-- Strings as lists of characters. -/
abbrev Str := List Char

/-- One item of a regex character class: a single character or a range. -/
inductive CItem where
  | one : Char → CItem
  | rng : Char → Char → CItem
deriving DecidableEq, Repr

/-- Does a character satisfy a class item? -/
def CItem.test (c : Char) : CItem → Bool
  | .one d => c == d
  | .rng lo hi => decide (lo.toNat ≤ c.toNat) && decide (c.toNat ≤ hi.toNat)

/-- Regex AST covering the constructs used by `filter.go`'s patterns:
character classes (possibly negated), concatenation, alternation,
counted repetition (`hi = none` means unbounded), the anchors `^`/`$`
(with their `(?m)` variants) and the word boundary `\b`. -/
inductive Regex where
  | eps : Regex
  | cls : Bool → List CItem → Regex
  | cat : Regex → Regex → Regex
  | alt : Regex → Regex → Regex
  | rep : Nat → Option Nat → Regex → Regex
  | bol : Bool → Regex
  | eol : Bool → Regex
  | wordB : Regex
deriving DecidableEq, Repr

/-- Go's `\w` (word character) for `\b`: `[0-9A-Za-z_]`. -/
def isWordChar (c : Char) : Bool := c.isAlphanum || c == '_'

/-- Class membership test (negation for `[^...]`). -/
def testCls (neg : Bool) (items : List CItem) (c : Char) : Bool :=
  let m := items.any (fun it => it.test c)
  if neg then !m else m

/-- `\b` holds when exactly one side of the position is a word character. -/
def atWordB (prev : Option Char) (s : Str) : Bool :=
  (match prev with | some c => isWordChar c | none => false)
    != (match s with | c :: _ => isWordChar c | [] => false)

/-- `^`: start of text, or after a newline when the `(?m)` flag is set. -/
def atBol (multi : Bool) (prev : Option Char) : Bool :=
  match prev with
  | none => true
  | some c => multi && c == '\n'

/-- `$`: end of text, or before a newline when the `(?m)` flag is set. -/
def atEol (multi : Bool) (s : Str) : Bool :=
  match s with
  | [] => true
  | c :: _ => multi && c == '\n'

/-- Decrement an optional repetition bound. -/
def decOpt : Option Nat → Option Nat
  | none => none
  | some n => some (n - 1)

/-- Prioritized backtracking matcher in continuation-passing style.
`prev` is the character immediately before the current position (for `\b`
and anchors); the continuation `k` receives the updated `prev` and the
remaining input.  Alternation tries the left branch first and repetition is
greedy, so the first success is the match a backtracking engine (and hence
Go's regexp, by its documented semantics) would select.  A repetition body
that consumes nothing stops iterating.  `fuel` bounds the recursion depth. -/
def matchAt (fuel : Nat) (r : Regex) (prev : Option Char) (s : Str)
    (k : Option Char → Str → Option Str) : Option Str :=
  match fuel with
  | 0 => none
  | fuel + 1 =>
    match r with
    | .eps => k prev s
    | .cls neg items =>
      match s with
      | [] => none
      | c :: rest => if testCls neg items c then k (some c) rest else none
    | .bol multi => if atBol multi prev then k prev s else none
    | .eol multi => if atEol multi s then k prev s else none
    | .wordB => if atWordB prev s then k prev s else none
    | .cat a b => matchAt fuel a prev s (fun p' s' => matchAt fuel b p' s' k)
    | .alt a b =>
      match matchAt fuel a prev s k with
      | some res => some res
      | none => matchAt fuel b prev s k
    | .rep lo hi body =>
      match lo with
      | lo' + 1 =>
        matchAt fuel body prev s (fun p' s' =>
          matchAt fuel (.rep lo' (decOpt hi) body) p' s' k)
      | 0 =>
        match hi with
        | some 0 => k prev s
        | _ =>
          match matchAt fuel body prev s (fun p' s' =>
              if s'.length < s.length then
                matchAt fuel (.rep 0 (decOpt hi) body) p' s' k
              else k p' s') with
          | some res => some res
          | none => k prev s

/-- Fuel bound: enough backtracking depth for a regex of this weight. -/
def Regex.weight : Regex → Nat
  | .eps => 1
  | .cls _ _ => 1
  | .bol _ => 1
  | .eol _ => 1
  | .wordB => 1
  | .cat a b => a.weight + b.weight + 1
  | .alt a b => a.weight + b.weight + 1
  | .rep lo hi r =>
    1 + (lo + (match hi with | some h => h + 1 | none => 1) + 1) * (r.weight + 2)

/-- Priority match of `r` at the current position; returns the remaining
suffix after the selected match, or `none` when `r` does not match here. -/
def matchHere (r : Regex) (prev : Option Char) (s : Str) : Option Str :=
  matchAt ((s.length + 2) * (r.weight + 2)) r prev s (fun _ rest => some rest)

/-- Leftmost priority match: returns `(pre, m, post)` with
`s = pre ++ m ++ post`, `m` the selected match at the leftmost matching
position.  When `skipEmpty` is set, an empty match at the very first
position is ignored (Go skips an empty match immediately following the end
of the previous match during `ReplaceAll`). -/
def findFrom (r : Regex) (prev : Option Char) (s : Str) (skipEmpty : Bool) :
    Option (Str × Str × Str) :=
  match s with
  | [] =>
    match matchHere r prev [] with
    | some rest =>
      if skipEmpty && (List.take (0 - rest.length) ([] : Str)).isEmpty then none
      else some ([], List.take (0 - rest.length) ([] : Str), rest)
    | none => none
  | c :: s' =>
    match matchHere r prev (c :: s') with
    | some rest =>
      if skipEmpty && ((c :: s').take ((c :: s').length - rest.length)).isEmpty then
        (findFrom r (some c) s' false).map (fun pr => (c :: pr.1, pr.2.1, pr.2.2))
      else some ([], (c :: s').take ((c :: s').length - rest.length), rest)
    | none =>
      (findFrom r (some c) s' skipEmpty).map (fun pr => (c :: pr.1, pr.2.1, pr.2.2))

/-- Worker for `replaceAll`: replace every selected match by `rep`,
continuing after each match; after an empty match one character is copied
and the scan continues; after a non-empty match an immediately adjacent
empty match is skipped (Go semantics). -/
def replaceAllAux (fuel : Nat) (r : Regex) (rep : Str) (prev : Option Char)
    (s : Str) (skipEmpty : Bool) : Str :=
  match fuel with
  | 0 => s
  | fuel + 1 =>
    match findFrom r prev s skipEmpty with
    | none => s
    | some (pre, m, post) =>
      match m with
      | [] =>
        match post with
        | [] => pre ++ rep
        | c :: post' => pre ++ rep ++ c :: replaceAllAux fuel r rep (some c) post' false
      | _ =>
        pre ++ rep ++ replaceAllAux fuel r rep m.getLast? post true

/-- Model of Go's `Regexp.ReplaceAllString` (for replacement strings without
`$` template references, which is the case throughout the repository). -/
def replaceAll (r : Regex) (rep : Str) (s : Str) : Str :=
  replaceAllAux (s.length + 1) r rep none s false

/-- Model of Go's `Regexp.MatchString`: does `r` match anywhere in `s`? -/
def matchesIn (r : Regex) (s : Str) : Bool :=
  (findFrom r none s false).isSome

/-! ## Transcription helpers for the regex literals of `filter.go`

Each Go pattern string is transcribed into a `Regex` term.  Under the
`(?i)` flag Go case-folds literals and character classes; the transcription
performs that folding explicitly (`ichr`, `ilit`, and folded classes). -/

/-- Literal character. -/
def chr (c : Char) : Regex := .cls false [.one c]

/-- Case-folded literal character (a literal under the `(?i)` flag). -/
def ichr (c : Char) : Regex := .cls false [.one c.toLower, .one c.toUpper]

/-- Literal string. -/
def lit (s : String) : Regex := s.data.foldr (fun c r => .cat (chr c) r) .eps

/-- Case-folded literal string (a literal under the `(?i)` flag). -/
def ilit (s : String) : Regex := s.data.foldr (fun c r => .cat (ichr c) r) .eps

/-- `x*` -/
def star (r : Regex) : Regex := .rep 0 none r

/-- `x+` -/
def plus (r : Regex) : Regex := .rep 1 none r

/-- `x?` -/
def opt (r : Regex) : Regex := .rep 0 (some 1) r

/-- `x{n}` -/
def repN (n : Nat) (r : Regex) : Regex := .rep n (some n) r

/-- `(?:a|b|...)` -/
def altL : List Regex → Regex
  | [] => .eps
  | [r] => r
  | r :: r' :: rs => .alt r (altL (r' :: rs))

/-- `\s` — in Go: `[\t\n\f\r ]`. -/
def spaceC : List CItem := [.one '\t', .one '\n', .one '\x0C', .one '\r', .one ' ']

/-- `\d` -/
def digitC : List CItem := [.rng '0' '9']

/-- `[a-zA-Z0-9]` -/
def alnumC : List CItem := [.rng 'a' 'z', .rng 'A' 'Z', .rng '0' '9']

/-- `\s` as a regex. -/
def spc : Regex := .cls false spaceC

/-- `\d` as a regex. -/
def dig : Regex := .cls false digitC

/-- `[a-zA-Z0-9]` as a regex. -/
def alnum : Regex := .cls false alnumC

/-- `['"]*` -/
def quotesStar : Regex := star (.cls false [.one '\'', .one '"'])

/-- `['"=:\s]+` -/
def kvSep : Regex := plus (.cls false ([.one '\'', .one '"', .one '=', .one ':'] ++ spaceC))

/-- `[^'"'\s]{n,}` (the duplicated `'` in the Go class is redundant). -/
def secretValue (n : Nat) : Regex := .rep n none (.cls true ([.one '\'', .one '"'] ++ spaceC))

/-- `[A-Z_]*` under `(?i)` (Go folds the class to `[A-Za-z_]*`). -/
def ucStar : Regex := star (.cls false [.rng 'A' 'Z', .rng 'a' 'z', .one '_'])

/-- `(?i)(?:API|KEY|TOKEN|SECRET|PASSWORD)` -/
def kw5 : Regex :=
  altL [ilit "API", ilit "KEY", ilit "TOKEN", ilit "SECRET", ilit "PASSWORD"]

/-- `(?i)(?:KEY|TOKEN|SECRET|PASSWORD)` -/
def kw4 : Regex := altL [ilit "KEY", ilit "TOKEN", ilit "SECRET", ilit "PASSWORD"]

/-- `(?i)(?:export\s+|set\s+)?` -/
def optExportSet : Regex :=
  opt (.alt (.cat (ilit "export") (plus spc)) (.cat (ilit "set") (plus spc)))

/-- `=['"]*([^'"'\s]{8,})['"]*` — the value part shared by the env-var
patterns of `compilePatterns`. -/
def envValue : Regex :=
  .cat (chr '=') (.cat quotesStar (.cat (secretValue 8) quotesStar))

/-- `(?i)(?:export\s+|set\s+)?(?:N1|N2|...)=['"]*([^'"'\s]{8,})['"]*` —
the shape shared by the named env-var patterns of `compilePatterns`. -/
def envVarPat (names : List String) : Regex :=
  .cat optExportSet (.cat (altL (names.map ilit)) envValue)

/-- `(?i)(?:export\s+|set\s+)?[A-Z_]*KW[A-Z_]*=['"]*([^'"'\s]{8,})['"]*` -/
def envKwPat (kw : String) : Regex :=
  .cat optExportSet (.cat ucStar (.cat (ilit kw) (.cat ucStar envValue)))

/-- `[^)]` -/
def notParen : Regex := .cls true [.one ')']

/-- `[^|]` -/
def notPipe : Regex := .cls true [.one '|']

/-- `[^'"]` -/
def notQuote : Regex := .cls true [.one '\'', .one '"']

/-- `[^@]` -/
def notAt : Regex := .cls true [.one '@']

/-- `(?i)(?:authorization|api[_-]?key|token)` (shared by the curl/wget
header patterns). -/
def authKw3 : Regex :=
  altL [ilit "authorization",
        .cat (ilit "api") (.cat (opt (.cls false [.one '_', .one '-'])) (ilit "key")),
        ilit "token"]

/-- `['"]*[=:]['"]*([^'"'\s]{8,})['"]*` — the tail shared by the curl/wget
header patterns. -/
def headerValueTail : Regex :=
  .cat quotesStar (.cat (.cls false [.one '=', .one ':'])
    (.cat quotesStar (.cat (secretValue 8) quotesStar)))

/-- `[a-zA-Z0-9._%+-]+@[a-zA-Z0-9.-]+\.[a-zA-Z]{2,}` — the email shape of
the moderate patterns. -/
def emailR : Regex :=
  .cat (plus (.cls false (alnumC ++ [.one '.', .one '_', .one '%', .one '+', .one '-'])))
    (.cat (chr '@')
      (.cat (plus (.cls false (alnumC ++ [.one '.', .one '-'])))
        (.cat (chr '.') (.rep 2 none (.cls false [.rng 'a' 'z', .rng 'A' 'Z'])))))

/-! ## The pattern catalogue of `compilePatterns` (filter.go:70-249)

Each entry is `(name, transcribed regex)`; the original Go regex literal is
given in the comment above it. -/

/-- The `basicPatterns` table of `compilePatterns` (filter.go:77-149). -/
def basicPatterns : List (Str × Regex) := [
  -- `sk-[a-zA-Z0-9]{48,}`
  ("OpenAI API Key".data, .cat (lit "sk-") (.rep 48 none alnum)),
  -- `pk-[a-zA-Z0-9]{48,}`
  ("OpenAI Project Key".data, .cat (lit "pk-") (.rep 48 none alnum)),
  -- `(?i)api[_-]?key['"=:\s]+['"]*([a-zA-Z0-9_\-]{8,})['"]*`
  ("Generic API Key".data,
    .cat (ilit "api") (.cat (opt (.cls false [.one '_', .one '-'])) (.cat (ilit "key")
      (.cat kvSep (.cat quotesStar
        (.cat (.rep 8 none (.cls false (alnumC ++ [.one '_', .one '-']))) quotesStar)))))),
  -- `(?i)bearer\s+([a-zA-Z0-9_\-\.]{2,})`
  ("Bearer Token".data,
    .cat (ilit "bearer") (.cat (plus spc)
      (.rep 2 none (.cls false (alnumC ++ [.one '_', .one '-', .one '.']))))),
  -- `(?i)authorization['"=:\s]+['"]*([a-zA-Z0-9_\-\.]{2,})['"]*`
  ("Authorization Header".data,
    .cat (ilit "authorization") (.cat kvSep (.cat quotesStar
      (.cat (.rep 2 none (.cls false (alnumC ++ [.one '_', .one '-', .one '.']))) quotesStar)))),
  -- `(?i)export\s+[A-Z_]*(?:API|KEY|TOKEN|SECRET|PASSWORD)[A-Z_]*=['"]*([^'"'\s]{8,})['"]*`
  ("Export API Key".data,
    .cat (ilit "export") (.cat (plus spc) (.cat ucStar (.cat kw5 (.cat ucStar envValue))))),
  -- `(?i)set\s+[A-Z_]*(?:API|KEY|TOKEN|SECRET|PASSWORD)[A-Z_]*=['"]*([^'"'\s]{8,})['"]*`
  ("Set Environment".data,
    .cat (ilit "set") (.cat (plus spc) (.cat ucStar (.cat kw5 (.cat ucStar envValue))))),
  -- `(?i)(?:export\s+|set\s+)?[A-Z_]*KEY[A-Z_]*=['"]*([^'"'\s]{8,})['"]*`
  ("Env Var with KEY".data, envKwPat "KEY"),
  -- `(?i)(?:export\s+|set\s+)?[A-Z_]*TOKEN[A-Z_]*=['"]*([^'"'\s]{8,})['"]*`
  ("Env Var with TOKEN".data, envKwPat "TOKEN"),
  -- `(?i)(?:export\s+|set\s+)?[A-Z_]*SECRET[A-Z_]*=['"]*([^'"'\s]{8,})['"]*`
  ("Env Var with SECRET".data, envKwPat "SECRET"),
  -- `(?i)(?:export\s+|set\s+)?[A-Z_]*PASSWORD[A-Z_]*=['"]*([^'"'\s]{8,})['"]*`
  ("Env Var with PASSWORD".data, envKwPat "PASSWORD"),
  -- `(?i)echo\s+\$[A-Z_]*(?:API|KEY|TOKEN|SECRET|PASSWORD)[A-Z_]*`
  ("Echo API Key".data,
    .cat (ilit "echo") (.cat (plus spc) (.cat (chr '$') (.cat ucStar (.cat kw5 ucStar))))),
  -- `(?i)echo\s+\$[A-Z_]*(?:KEY|TOKEN|SECRET|PASSWORD)[A-Z_]*`
  ("Echo Env Var".data,
    .cat (ilit "echo") (.cat (plus spc) (.cat (chr '$') (.cat ucStar (.cat kw4 ucStar))))),
  -- `(?i)\$\([^)]*(?:API|KEY|TOKEN|SECRET|PASSWORD)[^)]*\)`
  ("Command Substitution Secret".data,
    .cat (chr '$') (.cat (chr '(') (.cat (star notParen)
      (.cat kw5 (.cat (star notParen) (chr ')')))))),
  -- `(?m)^[a-zA-Z0-9_\-\.+/=]{20,}$`
  ("Standalone Secret Value".data,
    .cat (.bol true) (.cat (.rep 20 none (.cls false
      (alnumC ++ [.one '_', .one '-', .one '.', .one '+', .one '/', .one '=']))) (.eol true))),
  -- `(?i)(?:^|\s)(?:sk-[a-zA-Z0-9]{48,}|pk-[a-zA-Z0-9]{48,}|ghp_[a-zA-Z0-9]{36}|ghs_[a-zA-Z0-9]{36}|AKIA[0-9A-Z]{16}|xox[baprs]-[0-9a-zA-Z\-]{10,72})(?:\s|$)`
  ("Revealed Secret Line".data,
    .cat (.alt (.bol false) spc)
      (.cat (altL [
        .cat (ilit "sk-") (.rep 48 none alnum),
        .cat (ilit "pk-") (.rep 48 none alnum),
        .cat (ilit "ghp_") (repN 36 alnum),
        .cat (ilit "ghs_") (repN 36 alnum),
        .cat (ilit "AKIA") (repN 16 (.cls false [.rng '0' '9', .rng 'A' 'Z', .rng 'a' 'z'])),
        .cat (ilit "xox") (.cat (.cls false [.one 'b', .one 'a', .one 'p', .one 'r', .one 's',
            .one 'B', .one 'A', .one 'P', .one 'R', .one 'S'])
          (.cat (chr '-') (.rep 10 (some 72)
            (.cls false [.rng '0' '9', .rng 'a' 'z', .rng 'A' 'Z', .one '-']))))])
      (.alt spc (.eol false)))),
  -- `(?i)(?:export\s+|set\s+)?OPENAI_API_KEY=['"]*([^'"'\s]{8,})['"]*`
  ("OpenAI API Key Env".data, envVarPat ["OPENAI_API_KEY"]),
  -- `(?i)(?:export\s+|set\s+)?ANTHROPIC_API_KEY=['"]*([^'"'\s]{8,})['"]*`
  ("Anthropic API Key Env".data, envVarPat ["ANTHROPIC_API_KEY"]),
  -- `(?i)(?:export\s+|set\s+)?(?:GOOGLE_API_KEY|GEMINI_API_KEY)=['"]*([^'"'\s]{8,})['"]*`
  ("Google API Key Env".data, envVarPat ["GOOGLE_API_KEY", "GEMINI_API_KEY"]),
  -- `(?i)(?:export\s+|set\s+)?(?:AWS_ACCESS_KEY_ID|AWS_SECRET_ACCESS_KEY)=['"]*([^'"'\s]{8,})['"]*`
  ("AWS Keys Env".data, envVarPat ["AWS_ACCESS_KEY_ID", "AWS_SECRET_ACCESS_KEY"]),
  -- `(?i)(?:export\s+|set\s+)?(?:GITHUB_TOKEN|GH_TOKEN)=['"]*([^'"'\s]{8,})['"]*`
  ("GitHub Token Env".data, envVarPat ["GITHUB_TOKEN", "GH_TOKEN"]),
  -- `(?i)(?:export\s+|set\s+)?(?:AZURE_CLIENT_SECRET|AZURE_TENANT_ID)=['"]*([^'"'\s]{8,})['"]*`
  ("Azure Keys Env".data, envVarPat ["AZURE_CLIENT_SECRET", "AZURE_TENANT_ID"]),
  -- `(?i)(?:export\s+|set\s+)?(?:SLACK_TOKEN|SLACK_BOT_TOKEN)=['"]*([^'"'\s]{8,})['"]*`
  ("Slack Token Env".data, envVarPat ["SLACK_TOKEN", "SLACK_BOT_TOKEN"]),
  -- `(?i)(?:export\s+|set\s+)?DEEPSEEK_API_KEY=['"]*([^'"'\s]{8,})['"]*`
  ("DeepSeek API Key Env".data, envVarPat ["DEEPSEEK_API_KEY"]),
  -- `(?i)(?:export\s+|set\s+)?(?:STRIPE_SECRET_KEY|STRIPE_PUBLISHABLE_KEY)=['"]*([^'"'\s]{8,})['"]*`
  ("Stripe Keys Env".data, envVarPat ["STRIPE_SECRET_KEY", "STRIPE_PUBLISHABLE_KEY"]),
  -- `(?i)(?:export\s+|set\s+)?(?:TWILIO_AUTH_TOKEN|TWILIO_ACCOUNT_SID)=['"]*([^'"'\s]{8,})['"]*`
  ("Twilio Keys Env".data, envVarPat ["TWILIO_AUTH_TOKEN", "TWILIO_ACCOUNT_SID"]),
  -- `(?i)(?:export\s+|set\s+)?SENDGRID_API_KEY=['"]*([^'"'\s]{8,})['"]*`
  ("SendGrid API Key Env".data, envVarPat ["SENDGRID_API_KEY"]),
  -- `(?i)(?:export\s+|set\s+)?MAILGUN_API_KEY=['"]*([^'"'\s]{8,})['"]*`
  ("Mailgun API Key Env".data, envVarPat ["MAILGUN_API_KEY"]),
  -- `(?i)(?:export\s+|set\s+)?REDIS_URL=['"]*([^'"'\s]{8,})['"]*`
  ("Redis URL Env".data, envVarPat ["REDIS_URL"]),
  -- `(?i)(?:export\s+|set\s+)?(?:MONGODB_URI|MONGO_URL)=['"]*([^'"'\s]{8,})['"]*`
  ("MongoDB URI Env".data, envVarPat ["MONGODB_URI", "MONGO_URL"]),
  -- `(?i)(?:export\s+|set\s+)?(?:DATABASE_URL|DB_URL)=['"]*([^'"'\s]{8,})['"]*`
  ("Database URL Env".data, envVarPat ["DATABASE_URL", "DB_URL"]),
  -- `(?i)(?:export\s+|set\s+)?(?:JWT_SECRET|JWT_KEY)=['"]*([^'"'\s]{8,})['"]*`
  ("JWT Secret Env".data, envVarPat ["JWT_SECRET", "JWT_KEY"]),
  -- `(?i)(?:export\s+|set\s+)?(?:ENCRYPTION_KEY|SECRET_KEY|SESSION_SECRET)=['"]*([^'"'\s]{8,})['"]*`
  ("Encryption Key Env".data, envVarPat ["ENCRYPTION_KEY", "SECRET_KEY", "SESSION_SECRET"]),
  -- `(?i)(?:export\s+|set\s+)?(?:DOCKER_PASSWORD|REGISTRY_TOKEN)=['"]*([^'"'\s]{8,})['"]*`
  ("Docker Registry Env".data, envVarPat ["DOCKER_PASSWORD", "REGISTRY_TOKEN"]),
  -- `(?i)(?:export\s+|set\s+)?(?:CI_TOKEN|GITLAB_TOKEN|JENKINS_TOKEN)=['"]*([^'"'\s]{8,})['"]*`
  ("CI/CD Token Env".data, envVarPat ["CI_TOKEN", "GITLAB_TOKEN", "JENKINS_TOKEN"]),
  -- `(?i)(?:export\s+|set\s+)?(?:DIGITALOCEAN_TOKEN|VULTR_API_KEY|LINODE_TOKEN)=['"]*([^'"'\s]{8,})['"]*`
  ("Cloud Provider Keys".data, envVarPat ["DIGITALOCEAN_TOKEN", "VULTR_API_KEY", "LINODE_TOKEN"]),
  -- `eyJ[a-zA-Z0-9_\-]*\.eyJ[a-zA-Z0-9_\-]*\.[a-zA-Z0-9_\-]*`
  ("JWT Token".data,
    .cat (lit "eyJ") (.cat (star (.cls false (alnumC ++ [.one '_', .one '-'])))
      (.cat (chr '.') (.cat (lit "eyJ")
        (.cat (star (.cls false (alnumC ++ [.one '_', .one '-'])))
          (.cat (chr '.') (star (.cls false (alnumC ++ [.one '_', .one '-'])))))))) ),
  -- `(?i)--password[=\s]+['"]*([^'"'\s]{4,})['"]*`
  ("Password Parameter".data,
    .cat (ilit "--password") (.cat (plus (.cls false ([.one '='] ++ spaceC)))
      (.cat quotesStar (.cat (secretValue 4) quotesStar)))),
  -- `(?i)--token[=\s]+['"]*([^'"'\s]{8,})['"]*`
  ("Token Parameter".data,
    .cat (ilit "--token") (.cat (plus (.cls false ([.one '='] ++ spaceC)))
      (.cat quotesStar (.cat (secretValue 8) quotesStar)))),
  -- `(?i)--secret[=\s]+['"]*([^'"'\s]{8,})['"]*`
  ("Secret Parameter".data,
    .cat (ilit "--secret") (.cat (plus (.cls false ([.one '='] ++ spaceC)))
      (.cat quotesStar (.cat (secretValue 8) quotesStar)))),
  -- `(?i)(mysql|postgresql|mongodb|redis)://[^@]+:[^@]+@[^\s]+`
  ("Database URL".data,
    .cat (altL [ilit "mysql", ilit "postgresql", ilit "mongodb", ilit "redis"])
      (.cat (lit "://") (.cat (plus notAt) (.cat (chr ':') (.cat (plus notAt)
        (.cat (chr '@') (plus (.cls true spaceC)))))))),
  -- `(?i)curl[^|]*-H['"]*[^'"]*(?:authorization|api[_-]?key|token)['"]*[=:]['"]*([^'"'\s]{8,})['"]*`
  ("Curl Header Secret".data,
    .cat (ilit "curl") (.cat (star notPipe) (.cat (ilit "-H") (.cat quotesStar
      (.cat (star notQuote) (.cat authKw3 headerValueTail)))))),
  -- `(?i)wget[^|]*--header[='"]*[^'"]*(?:authorization|api[_-]?key|token)['"]*[=:]['"]*([^'"'\s]{8,})['"]*`
  ("Wget Header Secret".data,
    .cat (ilit "wget") (.cat (star notPipe) (.cat (ilit "--header")
      (.cat (star (.cls false [.one '=', .one '\'', .one '"']))
        (.cat (star notQuote) (.cat authKw3 headerValueTail))))))]

/-- The `moderatePatterns` table of `compilePatterns` (filter.go:165-193). -/
def moderatePatterns : List (Str × Regex) := [
  -- `(?i)(?:user|username|email|login)['"=:\s]+['"]*([a-zA-Z0-9._%+-]+@[a-zA-Z0-9.-]+\.[a-zA-Z]{2,})['"]*`
  ("Email in Auth".data,
    .cat (altL [ilit "user", ilit "username", ilit "email", ilit "login"])
      (.cat kvSep (.cat quotesStar (.cat emailR quotesStar)))),
  -- `(?i)curl\s+[^|]*-u\s+([a-zA-Z0-9._%+-]+@[a-zA-Z0-9.-]+\.[a-zA-Z]{2,}):([^@\s]+)`
  ("Email in curl -u".data,
    .cat (ilit "curl") (.cat (plus spc) (.cat (star notPipe) (.cat (ilit "-u")
      (.cat (plus spc) (.cat emailR (.cat (chr ':')
        (plus (.cls true ([.one '@'] ++ spaceC)))))))))),
  -- `(?:192\.168\.|10\.|172\.(?:1[6-9]|2[0-9]|3[01])\.)\d{1,3}\.\d{1,3}(?::\d+)?`
  ("Private IP".data,
    .cat (altL [lit "192.168.", lit "10.",
        .cat (lit "172.") (.cat (altL [
          .cat (chr '1') (.cls false [.rng '6' '9']),
          .cat (chr '2') dig,
          .cat (chr '3') (.cls false [.one '0', .one '1'])]) (chr '.'))])
      (.cat (.rep 1 (some 3) dig) (.cat (chr '.') (.cat (.rep 1 (some 3) dig)
        (opt (.cat (chr ':') (plus dig))))))),
  -- `-----BEGIN (?:RSA |EC |OPENSSH )?PRIVATE KEY-----`
  ("SSH Private Key".data,
    .cat (lit "-----BEGIN ") (.cat (opt (altL [lit "RSA ", lit "EC ", lit "OPENSSH "]))
      (lit "PRIVATE KEY-----"))),
  -- `AKIA[0-9A-Z]{16}`
  ("AWS Access Key".data, .cat (lit "AKIA") (repN 16 (.cls false [.rng '0' '9', .rng 'A' 'Z']))),
  -- `(?i)aws[_-]?secret[_-]?access[_-]?key['"=:\s]+['"]*([a-zA-Z0-9/+]{40})['"]*`
  ("AWS Secret Key".data,
    .cat (ilit "aws") (.cat (opt (.cls false [.one '_', .one '-'])) (.cat (ilit "secret")
      (.cat (opt (.cls false [.one '_', .one '-'])) (.cat (ilit "access")
        (.cat (opt (.cls false [.one '_', .one '-'])) (.cat (ilit "key")
          (.cat kvSep (.cat quotesStar
            (.cat (repN 40 (.cls false (alnumC ++ [.one '/', .one '+']))) quotesStar)))))))))),
  -- `ghp_[a-zA-Z0-9]{36}`
  ("GitHub Token".data, .cat (lit "ghp_") (repN 36 alnum)),
  -- `ghs_[a-zA-Z0-9]{36}`
  ("GitHub App Token".data, .cat (lit "ghs_") (repN 36 alnum)),
  -- `gho_[a-zA-Z0-9]{36}`
  ("GitHub OAuth Token".data, .cat (lit "gho_") (repN 36 alnum)),
  -- `xox[baprs]-[0-9a-zA-Z-]{10,72}`
  ("Slack Token".data,
    .cat (lit "xox") (.cat (.cls false [.one 'b', .one 'a', .one 'p', .one 'r', .one 's'])
      (.cat (chr '-') (.rep 10 (some 72)
        (.cls false [.rng '0' '9', .rng 'a' 'z', .rng 'A' 'Z', .one '-']))))),
  -- `(?i)://[^:@]+:([^@\s]{4,})@`
  ("Password in URL".data,
    .cat (lit "://") (.cat (plus (.cls true [.one ':', .one '@'])) (.cat (chr ':')
      (.cat (.rep 4 none (.cls true ([.one '@'] ++ spaceC))) (chr '@')))))]

/-- The `strictPatterns` table of `compilePatterns` (filter.go:209-224). -/
def strictPatterns : List (Str × Regex) := [
  -- `\b[a-zA-Z0-9]{32,}\b`
  ("Potential Secret".data, .cat .wordB (.cat (.rep 32 none alnum) .wordB)),
  -- `\b(?:4\d{3}|5[1-5]\d{2}|6011|65\d{2})\s*\d{4}\s*\d{4}\s*\d{4}\b`
  ("Credit Card".data,
    .cat .wordB (.cat (altL [
        .cat (chr '4') (repN 3 dig),
        .cat (chr '5') (.cat (.cls false [.rng '1' '5']) (repN 2 dig)),
        lit "6011",
        .cat (lit "65") (repN 2 dig)])
      (.cat (star spc) (.cat (repN 4 dig) (.cat (star spc) (.cat (repN 4 dig)
        (.cat (star spc) (.cat (repN 4 dig) .wordB)))))))),
  -- `\b\d{3}-\d{2}-\d{4}\b`
  ("SSN".data,
    .cat .wordB (.cat (repN 3 dig) (.cat (chr '-') (.cat (repN 2 dig)
      (.cat (chr '-') (.cat (repN 4 dig) .wordB)))))),
  -- `(?i)(?:phone|tel|mobile)['"=:\s]+['"]*([+]?[\d\s\-\(\)]{10,})['"]*`
  ("Phone Number".data,
    .cat (altL [ilit "phone", ilit "tel", ilit "mobile"])
      (.cat kvSep (.cat quotesStar (.cat (opt (chr '+'))
        (.cat (.rep 10 none (.cls false (digitC ++ spaceC ++ [.one '-', .one '(', .one ')'])))
          quotesStar)))))]

/-! ## The filter data model (filter.go:8-67) -/

/-- `FilterLevel` (filter.go:9-20): `None < Basic < Moderate < Strict`,
represented in Go as consecutive `int` constants starting at 0. -/
inductive FilterLevel where
  | levelNone : FilterLevel
  | basic : FilterLevel
  | moderate : FilterLevel
  | strict : FilterLevel
deriving DecidableEq, Repr

/-- The underlying `int` value of a `FilterLevel` constant. -/
def FilterLevel.toNat : FilterLevel → Nat
  | .levelNone => 0
  | .basic => 1
  | .moderate => 2
  | .strict => 3

/-- `FilterConfig` (filter.go:23-28).  A Go custom-pattern string is
modelled by its compilation result: `some r` when `regexp.Compile`
succeeds with compiled form `r`, `none` when the pattern is malformed. -/
structure FilterConfig where
  level : FilterLevel
  enabled : Bool
  customPatterns : List (Option Regex)
  replacementText : Str
deriving DecidableEq

/-- `DefaultFilterConfig` (filter.go:31-38). -/
def DefaultFilterConfig : FilterConfig :=
  { level := .basic
    enabled := true
    customPatterns := []
    replacementText := "[REDACTED]".data }

/-- `SensitivePattern` (filter.go:41-46). -/
structure SensitivePattern where
  name : Str
  pattern : Regex
  replacement : Str
  level : FilterLevel
deriving DecidableEq

/-- The empty-replacement fallback of `compilePatterns` (filter.go:71-74). -/
def coerceReplacement (r : Str) : Str :=
  if r = [] then "[REDACTED]".data else r

/-- `compilePatterns` (filter.go:70-249): basic patterns always, moderate
patterns when `level >= Moderate`, strict patterns when `level >= Strict`,
then the custom patterns (skipping those that failed to compile) with name
"Custom Pattern" and level Basic.  All built-in pattern literals compile
successfully under Go's `regexp.Compile`, so no built-in entry is skipped. -/
def compilePatterns (cfg : FilterConfig) : List SensitivePattern :=
  let rT := coerceReplacement cfg.replacementText
  let base := basicPatterns.map (fun p => ⟨p.1, p.2, rT, .basic⟩)
  let withMod :=
    if FilterLevel.moderate.toNat ≤ cfg.level.toNat then
      base ++ moderatePatterns.map (fun p => ⟨p.1, p.2, rT, .moderate⟩)
    else base
  let withStrict :=
    if FilterLevel.strict.toNat ≤ cfg.level.toNat then
      withMod ++ strictPatterns.map (fun p => ⟨p.1, p.2, rT, .strict⟩)
    else withMod
  withStrict ++ cfg.customPatterns.filterMap
    (fun oc => oc.map (fun c => ⟨"Custom Pattern".data, c, rT, .basic⟩))

/-- `Filter` (filter.go:49-52). -/
structure Filter where
  config : FilterConfig
  patterns : List SensitivePattern

/-- `NewFilter` (filter.go:55-67): a `nil` config falls back to
`DefaultFilterConfig`. -/
def NewFilter (config : Option FilterConfig) : Filter :=
  let cfg := match config with
    | none => DefaultFilterConfig
    | some c => c
  { config := cfg, patterns := compilePatterns cfg }

/-- Is the filter disabled (the early-return guard shared by
`FilterText`, `FilterLines`, `FilterMultilineText` and
`DetectSensitivePatterns`)? -/
def Filter.disabled (f : Filter) : Prop :=
  f.config.enabled = false ∨ f.config.level = FilterLevel.levelNone

instance (f : Filter) : Decidable f.disabled := by
  unfold Filter.disabled; infer_instance

/-- `FilterText` (filter.go:252-267): sequentially replace, over the
progressively filtered string, every pattern whose level is at most the
configured level. -/
def Filter.FilterText (f : Filter) (text : Str) : Str :=
  if f.disabled then text
  else
    f.patterns.foldl
      (fun acc p =>
        if p.level.toNat ≤ f.config.level.toNat then
          replaceAll p.pattern p.replacement acc
        else acc)
      text

/-- `FilterLines` (filter.go:270-281): apply `FilterText` to each line. -/
def Filter.FilterLines (f : Filter) (lines : List Str) : List Str :=
  if f.disabled then lines
  else lines.map f.FilterText

/-- `strings.Split(text, "\n")` (never returns an empty list). -/
def splitNL : Str → List Str
  | [] => [[]]
  | c :: rest =>
    match splitNL rest with
    | [] => [[]]
    | line :: more => if c = '\n' then [] :: line :: more else (c :: line) :: more

/-- `strings.Join(lines, "\n")`. -/
def joinNL : List Str → Str
  | [] => []
  | [l] => l
  | l :: l' :: ls => l ++ '\n' :: joinNL (l' :: ls)

/-- `FilterMultilineText` (filter.go:284-292). -/
def Filter.FilterMultilineText (f : Filter) (text : Str) : Str :=
  if f.disabled then text
  else joinNL (f.FilterLines (splitNL text))

/-- `DetectSensitivePatterns` (filter.go:295-309): collect the names of the
applicable patterns that match somewhere in the text. -/
def Filter.DetectSensitivePatterns (f : Filter) (text : Str) : List Str :=
  if f.disabled then []
  else
    f.patterns.foldl
      (fun acc p =>
        if p.level.toNat ≤ f.config.level.toNat && matchesIn p.pattern text then
          acc ++ [p.name]
        else acc)
      []

/-! ## The Log Rotator (spec §4.2, §8)

Modelled from the spec: the log-rotation subsystem lives in
`pkg/logrotate.go`, which is not among the provided sources; only the
spec's description of `Write` is available.  Per the spec, `Write(bytes)`
"appends to the current segment; if appending would exceed
`maxSegmentSize`, seals the current segment first and opens a new one
(with `sequenceNumber+1`) before writing". -/

/-- A log segment: its pre-compression size, its per-session sequence
number, and whether it has been sealed. -/
structure Segment where
  sizeBytes : Nat
  sequenceNumber : Nat
  isSealed : Bool
deriving DecidableEq, Repr

/-- Rotator state: the segment files of the session, in creation order. -/
structure RotatorState where
  maxSegmentSize : Nat
  segments : List Segment
deriving DecidableEq, Repr

/-- Modelled from the spec: a fresh rotator has one empty, unsealed
segment with sequence number 0. -/
def RotatorState.init (maxSegmentSize : Nat) : RotatorState :=
  { maxSegmentSize := maxSegmentSize, segments := [⟨0, 0, false⟩] }

/-- Modelled from the spec: `Write(n)` appends `n` bytes to the current
(last, unsealed) segment; if appending would exceed `maxSegmentSize`, the
current segment is sealed first and a new segment with the next sequence
number is opened before writing. -/
def RotatorState.write (st : RotatorState) (n : Nat) : RotatorState :=
  match st.segments.getLast? with
  | none => st
  | some cur =>
    if st.maxSegmentSize < cur.sizeBytes + n then
      { st with segments :=
          st.segments.dropLast ++
            [{ cur with isSealed := true }, ⟨n, cur.sequenceNumber + 1, false⟩] }
    else
      { st with segments :=
          st.segments.dropLast ++ [{ cur with sizeBytes := cur.sizeBytes + n }] }

/-- Run a sequence of `Write` operations. -/
def RotatorState.run (st : RotatorState) (ws : List Nat) : RotatorState :=
  ws.foldl RotatorState.write st

/-! ## Auxiliary definitions for the statements -/

/-- Does the string end with a newline? -/
def endsNL (s : Str) : Bool := s.getLast? == some '\n'

/-- Does `hay` start with `needle`? -/
def startsW : Str → Str → Bool
  | [], _ => true
  | _ :: _, [] => false
  | n :: ns, h :: hs => n == h && startsW ns hs

/-- Does `needle` occur as a contiguous substring of the second argument? -/
def containsSub (needle : Str) : Str → Bool
  | [] => startsW needle []
  | h :: hs => startsW needle (h :: hs) || containsSub needle hs

/-- A literal regex from a character list. -/
def strRegex (s : Str) : Regex := s.foldr (fun c r => .cat (chr c) r) .eps

/-- A run of 32 `a` characters. -/
def aRun32 : Str := List.replicate 32 'a'

/-- Counterexample input for monotonic redaction: `aaa…a!!`
(32 `a`s followed by two bangs). -/
def c2Text : Str := aRun32 ++ "!!".data

/-- Counterexample replacement text: `aaa…a!` (32 `a`s and one bang). -/
def c2Rep : Str := aRun32 ++ "!".data

/-- Counterexample custom pattern: the literal regex `aaa…a!!`.  It is a
valid Go regex (`!` is a literal), so it compiles. -/
def c2Custom : Regex := strRegex c2Text

/-- Moderate-level configuration for the monotonicity counterexample. -/
def c2CfgModerate : FilterConfig := ⟨.moderate, true, [some c2Custom], c2Rep⟩

/-- Strict-level configuration for the monotonicity counterexample. -/
def c2CfgStrict : FilterConfig := ⟨.strict, true, [some c2Custom], c2Rep⟩

/-- Counterexample custom pattern for no-secret-leakage: the literal regex
`D]` (valid in Go: an unmatched `]` is a literal). -/
def c1Cfg : FilterConfig :=
  { DefaultFilterConfig with customPatterns := [some (lit "D]")] }

/-- Counterexample configuration for trailing-newline preservation: the
custom pattern `b` with replacement text containing a newline. -/
def c6Cfg : FilterConfig :=
  { DefaultFilterConfig with
      customPatterns := [some (chr 'b')]
      replacementText := "X\n".data }

/-! ## Engine lemmas -/

/-- The matcher only consumes characters from the front: a successful run
ends in a continuation call on some suffix of the input, and that call
produced the result. -/
theorem matchAt_call (fuel : Nat) :
    ∀ (r : Regex) (prev : Option Char) (s : Str)
      (k : Option Char → Str → Option Str) (res : Str),
      matchAt fuel r prev s k = some res →
      ∃ p' s' pre, s = pre ++ s' ∧ k p' s' = some res := by
  induction fuel with
  | zero => intro r prev s k res h; simp [matchAt] at h
  | succ fuel ih =>
    intro r prev s k res h
    cases r with
    | eps => exact ⟨prev, s, [], rfl, h⟩
    | cls neg items =>
      cases s with
      | nil => simp [matchAt] at h
      | cons c rest =>
        simp only [matchAt] at h
        split at h
        · exact ⟨some c, rest, [c], rfl, h⟩
        · exact absurd h (by simp)
    | bol multi =>
      simp only [matchAt] at h
      split at h
      · exact ⟨prev, s, [], rfl, h⟩
      · exact absurd h (by simp)
    | eol multi =>
      simp only [matchAt] at h
      split at h
      · exact ⟨prev, s, [], rfl, h⟩
      · exact absurd h (by simp)
    | wordB =>
      simp only [matchAt] at h
      split at h
      · exact ⟨prev, s, [], rfl, h⟩
      · exact absurd h (by simp)
    | cat a b =>
      simp only [matchAt] at h
      obtain ⟨p1, s1, pre1, hs1, hk1⟩ := ih a prev s _ res h
      obtain ⟨p2, s2, pre2, hs2, hk2⟩ := ih b p1 s1 k res hk1
      exact ⟨p2, s2, pre1 ++ pre2, by rw [hs1, hs2, List.append_assoc], hk2⟩
    | alt a b =>
      simp only [matchAt] at h
      cases hma : matchAt fuel a prev s k with
      | some r1 =>
        rw [hma] at h
        exact ih a prev s k res (by rw [hma]; exact h)
      | none =>
        rw [hma] at h
        exact ih b prev s k res h
    | rep lo hi body =>
      cases lo with
      | succ lo' =>
        simp only [matchAt] at h
        obtain ⟨p1, s1, pre1, hs1, hk1⟩ := ih body prev s _ res h
        obtain ⟨p2, s2, pre2, hs2, hk2⟩ := ih (.rep lo' (decOpt hi) body) p1 s1 k res hk1
        exact ⟨p2, s2, pre1 ++ pre2, by rw [hs1, hs2, List.append_assoc], hk2⟩
      | zero =>
        have main :
            (match matchAt fuel body prev s (fun p' s' =>
                if s'.length < s.length then
                  matchAt fuel (.rep 0 (decOpt hi) body) p' s' k
                else k p' s') with
              | some r1 => some r1
              | none => k prev s) = some res →
            ∃ p' s' pre, s = pre ++ s' ∧ k p' s' = some res := by
          intro h'
          cases hmb : matchAt fuel body prev s (fun p' s' =>
              if s'.length < s.length then
                matchAt fuel (.rep 0 (decOpt hi) body) p' s' k
              else k p' s') with
          | some r1 =>
            rw [hmb] at h'
            obtain ⟨p1, s1, pre1, hs1, hk1⟩ :=
              ih body prev s _ res (by rw [hmb]; exact h')
            by_cases hls : s1.length < s.length
            · rw [if_pos hls] at hk1
              obtain ⟨p2, s2, pre2, hs2, hk2⟩ :=
                ih (.rep 0 (decOpt hi) body) p1 s1 k res hk1
              exact ⟨p2, s2, pre1 ++ pre2, by rw [hs1, hs2, List.append_assoc], hk2⟩
            · rw [if_neg hls] at hk1
              exact ⟨p1, s1, pre1, hs1, hk1⟩
          | none =>
            rw [hmb] at h'
            exact ⟨prev, s, [], rfl, h'⟩
        cases hi with
        | none => exact main (by simpa only [matchAt] using h)
        | some n =>
          cases n with
          | zero =>
            simp only [matchAt] at h
            exact ⟨prev, s, [], rfl, h⟩
          | succ n' => exact main (by simpa only [matchAt] using h)

/-- A match at the current position consumes a prefix of the input. -/
theorem matchHere_decomp {r : Regex} {prev : Option Char} {s rest : Str}
    (h : matchHere r prev s = some rest) : ∃ pre, s = pre ++ rest := by
  obtain ⟨p', s', pre, hs, hk⟩ := matchAt_call _ r prev s _ rest h
  obtain rfl : s' = rest := by simpa using hk
  exact ⟨pre, hs⟩

/-- `findFrom` decomposes its input: `s = pre ++ m ++ post`. -/
theorem findFrom_decomp :
    ∀ (s : Str) (r : Regex) (prev : Option Char) (skip : Bool) (pre m post : Str),
      findFrom r prev s skip = some (pre, m, post) → s = pre ++ (m ++ post) := by
  intro s
  induction s with
  | nil =>
    intro r prev skip pre m post h
    unfold findFrom at h
    cases hmh : matchHere r prev [] with
    | some rest =>
      rw [hmh] at h
      dsimp only at h
      obtain ⟨pre0, hs⟩ := matchHere_decomp hmh
      have hrest : rest = [] := (List.append_eq_nil.mp hs.symm).2
      subst hrest
      simp only [List.length_nil, List.take_nil, List.isEmpty_nil, Bool.and_true] at h
      split at h
      · exact absurd h (by simp)
      · simp only [Option.some.injEq, Prod.mk.injEq] at h
        obtain ⟨rfl, rfl, rfl⟩ := h
        rfl
    | none =>
      rw [hmh] at h
      simp at h
  | cons c s' ih =>
    intro r prev skip pre m post h
    unfold findFrom at h
    cases hmh : matchHere r prev (c :: s') with
    | some rest =>
      rw [hmh] at h
      dsimp only at h
      obtain ⟨pre0, hs⟩ := matchHere_decomp hmh
      have hlen : (c :: s').length - rest.length = pre0.length := by
        rw [hs, List.length_append]; omega
      have htake : List.take ((c :: s').length - rest.length) (c :: s') = pre0 := by
        rw [hlen, hs, List.take_left]
      rw [htake] at h
      split at h
      · obtain ⟨pr, hpr, heq⟩ := Option.map_eq_some'.mp h
        obtain ⟨pr1, pr2, pr3⟩ := pr
        cases heq
        have hdec := ih r (some c) false pr1 pr2 pr3 hpr
        simp [hdec]
      · simp only [Option.some.injEq, Prod.mk.injEq] at h
        obtain ⟨rfl, rfl, rfl⟩ := h
        simpa using hs
    | none =>
      rw [hmh] at h
      dsimp only at h
      obtain ⟨pr, hpr, heq⟩ := Option.map_eq_some'.mp h
      obtain ⟨pr1, pr2, pr3⟩ := pr
      cases heq
      have hdec := ih r (some c) skip pr1 pr2 pr3 hpr
      simp [hdec]

/-- If no match is found, replacement is the identity. -/
theorem replaceAllAux_of_none {r : Regex} {rep : Str} {prev : Option Char}
    {s : Str} {skip : Bool} (fuel : Nat) (h : findFrom r prev s skip = none) :
    replaceAllAux fuel r rep prev s skip = s := by
  cases fuel with
  | zero => rfl
  | succ fuel => simp [replaceAllAux, h]

/-- A negative `matchesIn` answer is exactly a failing `findFrom`. -/
theorem findFrom_of_not_matchesIn {r : Regex} {s : Str}
    (h : matchesIn r s = false) : findFrom r none s false = none := by
  unfold matchesIn at h
  cases hf : findFrom r none s false with
  | none => rfl
  | some v => rw [hf] at h; simp at h

/-- When a match `(pre, m, post)` is found, the replacement output starts
with `pre ++ rep`: the matched occurrence is removed from its position and
the replacement text put in its place. -/
theorem replaceAllAux_of_some {r : Regex} {rep : Str} {prev : Option Char}
    {s : Str} {skip : Bool} {pre m post : Str} (fuel : Nat)
    (h : findFrom r prev s skip = some (pre, m, post)) :
    ∃ tail, replaceAllAux (fuel + 1) r rep prev s skip = pre ++ (rep ++ tail) := by
  simp only [replaceAllAux, h]
  cases m with
  | nil =>
    cases post with
    | nil => exact ⟨[], by simp⟩
    | cons c post' =>
      exact ⟨c :: replaceAllAux fuel r rep (some c) post' false, by simp⟩
  | cons a m' => exact ⟨replaceAllAux fuel r rep (a :: m').getLast? post true, by simp⟩

/-- Every character of the replacement output comes from the input or from
the replacement string. -/
theorem mem_replaceAllAux (fuel : Nat) :
    ∀ (r : Regex) (rep : Str) (prev : Option Char) (s : Str) (skip : Bool) (c : Char),
      c ∈ replaceAllAux fuel r rep prev s skip → c ∈ s ∨ c ∈ rep := by
  induction fuel with
  | zero => intro r rep prev s skip c h; exact Or.inl h
  | succ fuel ih =>
    intro r rep prev s skip c h
    rw [replaceAllAux] at h
    cases hf : findFrom r prev s skip with
    | none => rw [hf] at h; exact Or.inl h
    | some v =>
      obtain ⟨pre, m, post⟩ := v
      have hs := findFrom_decomp s r prev skip pre m post hf
      rw [hf] at h
      dsimp only at h
      cases m with
      | nil =>
        cases post with
        | nil =>
          rcases List.mem_append.mp h with hc | hc
          · exact Or.inl (by rw [hs]; simp [hc])
          · exact Or.inr hc
        | cons d post' =>
          simp only [List.append_assoc, List.mem_append, List.mem_cons] at h
          rcases h with hc | hc | rfl | hc
          · exact Or.inl (by rw [hs]; simp [hc])
          · exact Or.inr hc
          · exact Or.inl (by rw [hs]; simp)
          · rcases ih r rep (some d) post' false c hc with hc' | hc'
            · exact Or.inl (by rw [hs]; simp [hc'])
            · exact Or.inr hc'
      | cons a m' =>
        simp only [List.append_assoc, List.mem_append] at h
        rcases h with hc | hc | hc
        · exact Or.inl (by rw [hs]; simp [hc])
        · exact Or.inr hc
        · rcases ih r rep (a :: m').getLast? post true c hc with hc' | hc'
          · exact Or.inl (by rw [hs]; simp [hc'])
          · exact Or.inr hc'

/-- With a non-empty replacement string, replacement preserves
non-emptiness. -/
theorem replaceAllAux_ne_nil {rep : Str} (hrep : rep ≠ []) (fuel : Nat)
    (r : Regex) (prev : Option Char) (s : Str) (skip : Bool) (hs : s ≠ []) :
    replaceAllAux fuel r rep prev s skip ≠ [] := by
  cases fuel with
  | zero => exact hs
  | succ fuel =>
    rw [replaceAllAux]
    cases hf : findFrom r prev s skip with
    | none => exact hs
    | some v =>
      obtain ⟨pre, m, post⟩ := v
      dsimp only
      cases m with
      | nil =>
        cases post with
        | nil => simp [hrep]
        | cons d post' => simp [hrep]
      | cons a m' => simp [hrep]

/-! ## FilterText / DetectSensitivePatterns lemmas -/

/-- The replacement pass over a pattern list is the identity on a text in
which no applicable pattern matches. -/
theorem foldl_replace_of_no_match (lvl : Nat) :
    ∀ (ps : List SensitivePattern) (t : Str),
      (∀ p ∈ ps, p.level.toNat ≤ lvl → matchesIn p.pattern t = false) →
      ps.foldl (fun acc p =>
        if p.level.toNat ≤ lvl then replaceAll p.pattern p.replacement acc else acc) t = t := by
  intro ps
  induction ps with
  | nil => intro t _; rfl
  | cons p ps ih =>
    intro t hmm
    have hstep : (if p.level.toNat ≤ lvl then replaceAll p.pattern p.replacement t else t) = t := by
      split
      · exact replaceAllAux_of_none _
          (findFrom_of_not_matchesIn (hmm p (by simp) (by assumption)))
      · rfl
    simp only [List.foldl_cons, hstep]
    exact ih t (fun q hq hlvl => hmm q (by simp [hq]) hlvl)

/-- Characters of the replacement pass come from the text or from the
(shared) replacement string. -/
theorem mem_foldl_replace (lvl : Nat) (R : Str) :
    ∀ (ps : List SensitivePattern) (t : Str) (c : Char),
      (∀ p ∈ ps, p.replacement = R) →
      c ∈ ps.foldl (fun acc p =>
        if p.level.toNat ≤ lvl then replaceAll p.pattern p.replacement acc else acc) t →
      c ∈ t ∨ c ∈ R := by
  intro ps
  induction ps with
  | nil => intro t c _ h; exact Or.inl h
  | cons p ps ih =>
    intro t c hrep h
    simp only [List.foldl_cons] at h
    rcases ih _ c (fun q hq => hrep q (by simp [hq])) h with hc | hc
    · split at hc
      · rcases mem_replaceAllAux _ _ _ _ _ _ _ hc with hc' | hc'
        · exact Or.inl hc'
        · right; rw [← hrep p (by simp)]; exact hc'
      · exact Or.inl hc
    · exact Or.inr hc

/-- With non-empty replacement strings, the replacement pass preserves
non-emptiness. -/
theorem foldl_replace_ne_nil (lvl : Nat) :
    ∀ (ps : List SensitivePattern) (t : Str),
      (∀ p ∈ ps, p.replacement ≠ []) → t ≠ [] →
      ps.foldl (fun acc p =>
        if p.level.toNat ≤ lvl then replaceAll p.pattern p.replacement acc else acc) t ≠ [] := by
  intro ps
  induction ps with
  | nil => intro t _ ht; exact ht
  | cons p ps ih =>
    intro t hrep ht
    simp only [List.foldl_cons]
    refine ih _ (fun q hq => hrep q (by simp [hq])) ?_
    split
    · exact replaceAllAux_ne_nil (hrep p (by simp)) _ _ _ _ _ ht
    · exact ht

/-- The accumulate-names loop of `DetectSensitivePatterns` is
filter-then-map. -/
theorem foldl_detect (cond : SensitivePattern → Bool) (g : SensitivePattern → Str) :
    ∀ (ps : List SensitivePattern) (init : List Str),
      ps.foldl (fun acc p => if cond p then acc ++ [g p] else acc) init
        = init ++ (ps.filter cond).map g := by
  intro ps
  induction ps with
  | nil => intro init; simp
  | cons p ps ih =>
    intro init
    simp only [List.foldl_cons, List.filter_cons]
    cases hc : cond p with
    | true => simp [hc, ih]
    | false => simp [hc, ih]

/-- Characterization of `DetectSensitivePatterns` on an enabled filter. -/
theorem detect_eq (f : Filter) (t : Str) (h : ¬ f.disabled) :
    f.DetectSensitivePatterns t
      = (f.patterns.filter (fun p =>
          decide (p.level.toNat ≤ f.config.level.toNat) && matchesIn p.pattern t)).map
        (fun p => p.name) := by
  unfold Filter.DetectSensitivePatterns
  rw [if_neg h]
  simpa using foldl_detect
    (fun p => decide (p.level.toNat ≤ f.config.level.toNat) && matchesIn p.pattern t)
    (fun p => p.name) f.patterns []

/-! ## compilePatterns lemmas -/

/-- Normal form of `compilePatterns`: the conditional appends pushed
inside. -/
theorem compilePatterns_eq (cfg : FilterConfig) :
    compilePatterns cfg =
      basicPatterns.map
          (fun p => ⟨p.1, p.2, coerceReplacement cfg.replacementText, .basic⟩)
        ++ ((if FilterLevel.moderate.toNat ≤ cfg.level.toNat then
              moderatePatterns.map
                (fun p => ⟨p.1, p.2, coerceReplacement cfg.replacementText, .moderate⟩)
            else [])
        ++ ((if FilterLevel.strict.toNat ≤ cfg.level.toNat then
              strictPatterns.map
                (fun p => ⟨p.1, p.2, coerceReplacement cfg.replacementText, .strict⟩)
            else [])
        ++ cfg.customPatterns.filterMap
            (fun oc => oc.map
              (fun c => ⟨"Custom Pattern".data, c, coerceReplacement cfg.replacementText, .basic⟩)))) := by
  unfold compilePatterns
  split_ifs with h1 h2 h2 <;> simp [List.append_assoc]

/-- The coerced replacement text is never empty. -/
theorem coerceReplacement_ne_nil (r : Str) : coerceReplacement r ≠ [] := by
  unfold coerceReplacement
  split
  · decide
  · assumption

/-- Every compiled pattern carries the coerced replacement text. -/
theorem replacement_of_mem_compilePatterns {cfg : FilterConfig} {p : SensitivePattern}
    (hp : p ∈ compilePatterns cfg) :
    p.replacement = coerceReplacement cfg.replacementText := by
  rw [compilePatterns_eq] at hp
  rcases List.mem_append.mp hp with hb | hp
  · obtain ⟨q, _, rfl⟩ := List.mem_map.mp hb
    rfl
  rcases List.mem_append.mp hp with hm | hp
  · split at hm
    · obtain ⟨q, _, rfl⟩ := List.mem_map.mp hm
      rfl
    · simp at hm
  rcases List.mem_append.mp hp with hs | hc
  · split at hs
    · obtain ⟨q, _, rfl⟩ := List.mem_map.mp hs
      rfl
    · simp at hs
  · obtain ⟨oc, _, hoc⟩ := List.mem_filterMap.mp hc
    obtain ⟨c, _, rfl⟩ := Option.map_eq_some'.mp hoc
    rfl

/-- Raising the level only adds patterns: membership in the compiled
pattern list is monotone in the configured level. -/
theorem mem_compilePatterns_mono {lv lv' : FilterLevel} {en : Bool}
    {cps : List (Option Regex)} {rt : Str} {p : SensitivePattern}
    (h : lv.toNat ≤ lv'.toNat)
    (hp : p ∈ compilePatterns ⟨lv, en, cps, rt⟩) :
    p ∈ compilePatterns ⟨lv', en, cps, rt⟩ := by
  rw [compilePatterns_eq] at hp ⊢
  simp only [List.mem_append] at hp ⊢
  rcases hp with hb | hm | hs | hc
  · exact Or.inl hb
  · refine Or.inr (Or.inl ?_)
    split at hm
    · rw [if_pos (by omega)]
      exact hm
    · simp at hm
  · refine Or.inr (Or.inr (Or.inl ?_))
    split at hs
    · rw [if_pos (by omega)]
      exact hs
    · simp at hs
  · exact Or.inr (Or.inr (Or.inr hc))

/-! ## Split/join lemmas -/

/-- `strings.Split` never returns an empty list. -/
theorem splitNL_ne_nil : ∀ s : Str, splitNL s ≠ [] := by
  intro s
  cases s with
  | nil => simp [splitNL]
  | cons c s' =>
    unfold splitNL
    cases splitNL s' with
    | nil => simp
    | cons line more =>
      dsimp only
      split <;> simp

/-- Joining after prepending a character to the first line. -/
theorem joinNL_cons (c : Char) (l : Str) (ls : List Str) :
    joinNL ((c :: l) :: ls) = c :: joinNL (l :: ls) := by
  cases ls with
  | nil => rfl
  | cons m ms => rfl

/-- Split/join round-trip: `strings.Join(strings.Split(s, "\n"), "\n") = s`. -/
theorem joinNL_splitNL : ∀ s : Str, joinNL (splitNL s) = s := by
  intro s
  induction s with
  | nil => rfl
  | cons c s' ih =>
    unfold splitNL
    cases hsp : splitNL s' with
    | nil => exact absurd hsp (splitNL_ne_nil s')
    | cons line more =>
      rw [hsp] at ih
      dsimp only
      by_cases hc : c = '\n'
      · rw [if_pos hc]
        subst hc
        show '\n' :: joinNL (line :: more) = '\n' :: s'
        rw [ih]
      · rw [if_neg hc, joinNL_cons, ih]

/-- Lines produced by `splitNL` contain no newline. -/
theorem mem_splitNL_no_newline : ∀ (s : Str) (l : Str), l ∈ splitNL s → '\n' ∉ l := by
  intro s
  induction s with
  | nil =>
    intro l hl
    simp [splitNL] at hl
    simp [hl]
  | cons c s' ih =>
    intro l hl
    unfold splitNL at hl
    cases hsp : splitNL s' with
    | nil => exact absurd hsp (splitNL_ne_nil s')
    | cons line more =>
      rw [hsp] at hl
      dsimp only at hl
      split at hl
      · rcases List.mem_cons.mp hl with rfl | hl'
        · simp
        · exact ih l (by rw [hsp]; exact hl')
      · rcases List.mem_cons.mp hl with rfl | hl'
        · intro hmem
          rcases List.mem_cons.mp hmem with rfl | hmem'
          · simp_all
          · exact ih line (by rw [hsp]; simp) hmem'
        · exact ih l (by rw [hsp]; simp [hl'])

/-- A single-line split means the string has no newline, and then the line
is the string itself. -/
theorem splitNL_singleton {s l : Str} (h : splitNL s = [l]) : s = l := by
  have := joinNL_splitNL s
  rw [h] at this
  exact this.symm

/-- `getLast?` skips a cons onto a non-empty list. -/
theorem getLast?_cons_ne_nil (c : Char) {s : Str} (h : s ≠ []) :
    (c :: s).getLast? = s.getLast? := by
  cases s with
  | nil => exact absurd rfl h
  | cons b l => exact List.getLast?_cons_cons

/-- `endsNL` ignores a character prepended to a non-empty string. -/
theorem endsNL_cons_of_ne_nil (c : Char) {s : Str} (h : s ≠ []) :
    endsNL (c :: s) = endsNL s := by
  unfold endsNL
  rw [getLast?_cons_ne_nil c h]

/-- A newline-free string does not end with a newline. -/
theorem endsNL_of_no_newline {s : Str} (h : '\n' ∉ s) : endsNL s = false := by
  unfold endsNL
  cases hl : s.getLast? with
  | none => rfl
  | some d =>
    by_cases hd : d = '\n'
    · subst hd
      exact absurd (List.mem_of_mem_getLast? (by rw [hl]; rfl)) h
    · simp [hd]

/-- The last split line is empty exactly for the empty string or a string
ending in a newline. -/
theorem splitNL_getLast_eq_nil_iff :
    ∀ s : Str, (splitNL s).getLast? = some [] ↔ (s = [] ∨ endsNL s = true) := by
  intro s
  induction s with
  | nil => simp [splitNL, endsNL]
  | cons c s' ih =>
    unfold splitNL
    cases hsp : splitNL s' with
    | nil => exact absurd hsp (splitNL_ne_nil s')
    | cons line more =>
      rw [hsp] at ih
      dsimp only
      by_cases hc : c = '\n'
      · rw [if_pos hc]
        subst hc
        rw [List.getLast?_cons_cons, ih]
        by_cases hs0 : s' = []
        · subst hs0
          simp [endsNL]
        · rw [endsNL_cons_of_ne_nil '\n' hs0]
          simp [hs0]
      · rw [if_neg hc]
        cases more with
        | nil =>
          have hs' : s' = line := splitNL_singleton hsp
          subst hs'
          have hnl : '\n' ∉ (c :: s') := by
            intro hmem
            rcases List.mem_cons.mp hmem with heq | hmem'
            · exact hc heq.symm
            · exact mem_splitNL_no_newline s' s' (by rw [hsp]; simp) hmem'
          rw [endsNL_of_no_newline hnl]
          simp
        | cons m ms =>
          have hlast : ((c :: line) :: m :: ms).getLast? = (line :: m :: ms).getLast? := by
            rw [List.getLast?_cons_cons, List.getLast?_cons_cons]
          rw [hlast, ih]
          have hs'ne : s' ≠ [] := by
            intro h0
            rw [h0] at hsp
            simp [splitNL] at hsp
          rw [endsNL_cons_of_ne_nil c hs'ne]
          simp [hs'ne]

/-- A split has at least two lines exactly when the string contains a
newline. -/
theorem two_le_splitNL_length_iff :
    ∀ s : Str, 2 ≤ (splitNL s).length ↔ '\n' ∈ s := by
  intro s
  induction s with
  | nil => simp [splitNL]
  | cons c s' ih =>
    unfold splitNL
    cases hsp : splitNL s' with
    | nil => exact absurd hsp (splitNL_ne_nil s')
    | cons line more =>
      rw [hsp] at ih
      dsimp only
      by_cases hc : c = '\n'
      · rw [if_pos hc]
        subst hc
        simp
      · rw [if_neg hc]
        have hlen : ((c :: line) :: more).length = (line :: more).length := by simp
        rw [hlen, ih]
        simp only [List.mem_cons]
        constructor
        · intro h
          exact Or.inr h
        · rintro (heq | h)
          · exact absurd heq.symm hc
          · exact h

/-! ## FilterText wrappers -/

/-- A text in which no applicable pattern matches is returned unchanged. -/
theorem FilterText_of_no_match (f : Filter) (t : Str)
    (h : ∀ p ∈ f.patterns,
        p.level.toNat ≤ f.config.level.toNat → matchesIn p.pattern t = false) :
    f.FilterText t = t := by
  unfold Filter.FilterText
  split
  · rfl
  · exact foldl_replace_of_no_match _ f.patterns t h

/-- Every character of a filtered text comes from the input or from the
shared replacement string. -/
theorem mem_FilterText {f : Filter} {t : Str} {c : Char} {R : Str}
    (hrep : ∀ p ∈ f.patterns, p.replacement = R)
    (hc : c ∈ f.FilterText t) : c ∈ t ∨ c ∈ R := by
  unfold Filter.FilterText at hc
  split at hc
  · exact Or.inl hc
  · exact mem_foldl_replace _ R f.patterns t c hrep hc

/-- With non-empty replacement strings, filtering preserves
non-emptiness. -/
theorem FilterText_ne_nil {f : Filter} {t : Str}
    (hrep : ∀ p ∈ f.patterns, p.replacement ≠ []) (ht : t ≠ []) :
    f.FilterText t ≠ [] := by
  unfold Filter.FilterText
  split
  · exact ht
  · exact foldl_replace_ne_nil _ f.patterns t hrep ht

/-! ## Rotator lemmas -/

/-- The rotator invariant: the segment list is a sealed part (each within
the size bound) followed by exactly one unsealed current segment within the
bound. -/
def RotatorInv (st : RotatorState) : Prop :=
  ∃ sealedPart cur, st.segments = sealedPart ++ [cur] ∧ cur.isSealed = false ∧
    cur.sizeBytes ≤ st.maxSegmentSize ∧
    ∀ sg ∈ sealedPart, sg.isSealed = true ∧ sg.sizeBytes ≤ st.maxSegmentSize

/-- A bounded write preserves the rotator invariant. -/
theorem rotatorInv_write {st : RotatorState} (hinv : RotatorInv st) {n : Nat}
    (hn : n ≤ st.maxSegmentSize) : RotatorInv (st.write n) := by
  obtain ⟨sealedPart, cur, hsegs, hcur, hsize, hsealed⟩ := hinv
  unfold RotatorState.write
  rw [hsegs]
  have hlast : (sealedPart ++ [cur]).getLast? = some cur := by
    simp [List.getLast?_append_of_ne_nil]
  rw [hlast]
  dsimp only
  have hdrop : (sealedPart ++ [cur]).dropLast = sealedPart := by
    simp
  split
  · refine ⟨sealedPart ++ [{ cur with isSealed := true }],
      ⟨n, cur.sequenceNumber + 1, false⟩, ?_, rfl, hn, ?_⟩
    · rw [hdrop]
      simp
    · intro sg hsg
      rcases List.mem_append.mp hsg with hsg | hsg
      · exact hsealed sg hsg
      · simp at hsg
        subst hsg
        exact ⟨rfl, hsize⟩
  · refine ⟨sealedPart, { cur with sizeBytes := cur.sizeBytes + n }, ?_, hcur, ?_, hsealed⟩
    · rw [hdrop]
    · dsimp only
      omega

/-- The invariant holds after any bounded write sequence from any invariant
state. -/
theorem rotatorInv_run {st : RotatorState} (hinv : RotatorInv st) :
    ∀ ws : List Nat, (∀ n ∈ ws, n ≤ st.maxSegmentSize) → RotatorInv (st.run ws) := by
  intro ws
  induction ws generalizing st with
  | nil => intro _; exact hinv
  | cons n ws ih =>
    intro hb
    have hmax : (st.write n).maxSegmentSize = st.maxSegmentSize := by
      unfold RotatorState.write
      cases st.segments.getLast? with
      | none => rfl
      | some cur =>
        dsimp only
        split <;> rfl
    refine ih (rotatorInv_write hinv (hb n (by simp))) ?_
    intro m hm
    rw [hmax]
    exact hb m (by simp [hm])

/-! ## Claim theorems -/

/-- C3: disabled filtering is the identity — when `enabled=false` or
`level=None`, `FilterText`, `FilterLines` and `FilterMultilineText` all
return their input unchanged. -/
theorem C3_disabled_filtering_identity (f : Filter) (t : Str) (lines : List Str)
    (h : f.config.enabled = false ∨ f.config.level = FilterLevel.levelNone) :
    f.FilterText t = t ∧ f.FilterLines lines = lines ∧ f.FilterMultilineText t = t := by
  have hd : f.disabled := h
  refine ⟨?_, ?_, ?_⟩
  · unfold Filter.FilterText
    rw [if_pos hd]
  · unfold Filter.FilterLines
    rw [if_pos hd]
  · unfold Filter.FilterMultilineText
    rw [if_pos hd]

/-- Witness for C3 at a concrete disabled configuration and input. -/
theorem C3_disabled_filtering_identity_witness :
    (NewFilter (some ⟨FilterLevel.levelNone, true, [], "[REDACTED]".data⟩)).FilterText
        "export API_KEY=abcdefgh".data = "export API_KEY=abcdefgh".data
    ∧ (NewFilter (some ⟨FilterLevel.levelNone, true, [], "[REDACTED]".data⟩)).FilterLines
        ["ls".data] = ["ls".data]
    ∧ (NewFilter (some ⟨FilterLevel.levelNone, true, [], "[REDACTED]".data⟩)).FilterMultilineText
        "export API_KEY=abcdefgh".data = "export API_KEY=abcdefgh".data := by
  have h := C3_disabled_filtering_identity
    (NewFilter (some ⟨FilterLevel.levelNone, true, [], "[REDACTED]".data⟩))
    "export API_KEY=abcdefgh".data ["ls".data] (Or.inr rfl)
  exact ⟨h.1, h.2.1, h.2.2⟩

/-- C10: `NewFilter nil` falls back to the default configuration (level
Basic, enabled, no custom patterns, replacement `[REDACTED]`), and all four
filter operations agree with those of `NewFilter(DefaultFilterConfig())`. -/
theorem C10_nil_config_default :
    NewFilter none = NewFilter (some DefaultFilterConfig)
    ∧ DefaultFilterConfig.level = FilterLevel.basic
    ∧ DefaultFilterConfig.enabled = true
    ∧ DefaultFilterConfig.customPatterns = []
    ∧ DefaultFilterConfig.replacementText = "[REDACTED]".data
    ∧ (∀ t, (NewFilter none).FilterText t
        = (NewFilter (some DefaultFilterConfig)).FilterText t)
    ∧ (∀ ls, (NewFilter none).FilterLines ls
        = (NewFilter (some DefaultFilterConfig)).FilterLines ls)
    ∧ (∀ t, (NewFilter none).FilterMultilineText t
        = (NewFilter (some DefaultFilterConfig)).FilterMultilineText t)
    ∧ (∀ t, (NewFilter none).DetectSensitivePatterns t
        = (NewFilter (some DefaultFilterConfig)).DetectSensitivePatterns t) :=
  ⟨rfl, rfl, rfl, rfl, rfl, fun _ => rfl, fun _ => rfl, fun _ => rfl, fun _ => rfl⟩

/-- C5: a malformed custom pattern (one whose compilation fails) is skipped
on its own: the compiled pattern list — and hence `FilterText` — is the
same as if that pattern were absent, while every built-in pattern and every
other (well-formed) custom pattern is still compiled and applied. -/
theorem C5_malformed_custom_pattern_skipped (lv : FilterLevel) (en : Bool)
    (cps1 cps2 : List (Option Regex)) (rt : Str) :
    compilePatterns ⟨lv, en, cps1 ++ none :: cps2, rt⟩
      = compilePatterns ⟨lv, en, cps1 ++ cps2, rt⟩
    ∧ (∀ t, (NewFilter (some ⟨lv, en, cps1 ++ none :: cps2, rt⟩)).FilterText t
        = (NewFilter (some ⟨lv, en, cps1 ++ cps2, rt⟩)).FilterText t)
    ∧ (∀ pr ∈ basicPatterns,
        (⟨pr.1, pr.2, coerceReplacement rt, .basic⟩ : SensitivePattern)
          ∈ compilePatterns ⟨lv, en, cps1 ++ none :: cps2, rt⟩)
    ∧ (∀ r', some r' ∈ cps1 ++ cps2 →
        (⟨"Custom Pattern".data, r', coerceReplacement rt, .basic⟩ : SensitivePattern)
          ∈ compilePatterns ⟨lv, en, cps1 ++ none :: cps2, rt⟩) := by
  have h1 : compilePatterns ⟨lv, en, cps1 ++ none :: cps2, rt⟩
      = compilePatterns ⟨lv, en, cps1 ++ cps2, rt⟩ := by
    unfold compilePatterns
    simp [List.filterMap_append, List.filterMap_cons]
  refine ⟨h1, ?_, ?_, ?_⟩
  · intro t
    unfold Filter.FilterText NewFilter
    dsimp only
    rw [h1]
    simp only [Filter.disabled]
  · intro pr hpr
    rw [compilePatterns_eq]
    exact List.mem_append.mpr (Or.inl (List.mem_map.mpr ⟨pr, hpr, rfl⟩))
  · intro r' hr'
    rw [compilePatterns_eq]
    refine List.mem_append.mpr (Or.inr (List.mem_append.mpr (Or.inr
      (List.mem_append.mpr (Or.inr ?_)))))
    refine List.mem_filterMap.mpr ⟨some r', ?_, rfl⟩
    rcases List.mem_append.mp hr' with hm | hm
    · exact List.mem_append.mpr (Or.inl hm)
    · exact List.mem_append.mpr (Or.inr (List.mem_cons_of_mem none hm))

/-- Witness for C5 at a concrete configuration: dropping the malformed
pattern leaves the list unchanged and the well-formed custom pattern is
compiled. -/
theorem C5_malformed_custom_pattern_skipped_witness :
    compilePatterns ⟨.basic, true, [none, some (chr 'q')], []⟩
      = compilePatterns ⟨.basic, true, [some (chr 'q')], []⟩
    ∧ (⟨"Custom Pattern".data, chr 'q', coerceReplacement [], .basic⟩ : SensitivePattern)
        ∈ compilePatterns ⟨.basic, true, [none, some (chr 'q')], []⟩ := by
  have h := C5_malformed_custom_pattern_skipped .basic true [] [some (chr 'q')] []
  exact ⟨h.1, h.2.2.2 (chr 'q') (by simp)⟩

/-- C4: `FilterLines` preserves line count and order, element `i` of the
output is `FilterText` of element `i` of the input, and a line in which no
applicable pattern matches is returned byte-identical. -/
theorem C4_filterlines_pointwise (f : Filter) (lines : List Str) :
    (f.FilterLines lines).length = lines.length
    ∧ (∀ i, i < lines.length →
        (f.FilterLines lines).getD i [] = f.FilterText (lines.getD i []))
    ∧ (∀ i, i < lines.length →
        (∀ p ∈ f.patterns, p.level.toNat ≤ f.config.level.toNat →
          matchesIn p.pattern (lines.getD i []) = false) →
        (f.FilterLines lines).getD i [] = lines.getD i []) := by
  have hmap : ∀ (g : Str → Str) (i : Nat), i < lines.length →
      (lines.map g).getD i [] = g (lines.getD i []) := by
    intro g i hi
    rw [List.getD_eq_getElem?_getD, List.getD_eq_getElem?_getD, List.getElem?_map,
      List.getElem?_eq_getElem hi]
    rfl
  unfold Filter.FilterLines
  split
  · rename_i hd
    have hid : ∀ u : Str, f.FilterText u = u := by
      intro u
      unfold Filter.FilterText
      rw [if_pos hd]
    exact ⟨rfl, fun i _ => (hid (lines.getD i [])).symm, fun i _ _ => rfl⟩
  · refine ⟨List.length_map lines f.FilterText, fun i hi => hmap f.FilterText i hi, ?_⟩
    intro i hi hnm
    rw [hmap f.FilterText i hi]
    exact FilterText_of_no_match f (lines.getD i []) hnm

/-- Witness for C4 at the default filter on a two-line input. -/
theorem C4_filterlines_pointwise_witness :
    ((NewFilter none).FilterLines ["ls".data, "pwd".data]).length = 2
    ∧ ((NewFilter none).FilterLines ["ls".data, "pwd".data]).getD 0 []
        = (NewFilter none).FilterText "ls".data
    ∧ ((NewFilter none).FilterLines ["ls".data, "pwd".data]).getD 0 [] = "ls".data := by
  have h := C4_filterlines_pointwise (NewFilter none) ["ls".data, "pwd".data]
  exact ⟨h.1, h.2.1 0 (by decide), h.2.2 0 (by decide) (by decide)⟩

/-- C7: `DetectSensitivePatterns` returns exactly the names of the
applicable matching patterns (never the matched content), and returns the
empty collection whenever the filter is disabled or the level is None. -/
theorem C7_detect_names_only (f : Filter) (t : Str) :
    ((f.config.enabled = false ∨ f.config.level = FilterLevel.levelNone) →
      f.DetectSensitivePatterns t = [])
    ∧ (¬ (f.config.enabled = false ∨ f.config.level = FilterLevel.levelNone) →
      f.DetectSensitivePatterns t
        = (f.patterns.filter (fun p =>
            decide (p.level.toNat ≤ f.config.level.toNat) && matchesIn p.pattern t)).map
          (fun p => p.name)) := by
  constructor
  · intro h
    unfold Filter.DetectSensitivePatterns
    rw [if_pos (show f.disabled from h)]
  · intro h
    exact detect_eq f t h

/-- Witness for C7: a disabled filter detects nothing, and on the default
filter the detected names are exactly the applicable matching names. -/
theorem C7_detect_names_only_witness :
    (NewFilter (some ⟨FilterLevel.levelNone, true, [], []⟩)).DetectSensitivePatterns
        "bearer abcd".data = []
    ∧ (NewFilter none).DetectSensitivePatterns "bearer abcd".data
        = (((NewFilter none).patterns.filter (fun p =>
            decide (p.level.toNat ≤ (NewFilter none).config.level.toNat)
              && matchesIn p.pattern "bearer abcd".data)).map (fun p => p.name)) := by
  refine ⟨?_, ?_⟩
  · exact (C7_detect_names_only
      (NewFilter (some ⟨FilterLevel.levelNone, true, [], []⟩)) "bearer abcd".data).1
      (Or.inr rfl)
  · exact (C7_detect_names_only (NewFilter none) "bearer abcd".data).2 (by decide)

/-- A level of positive rank is not `None`. -/
theorem level_ne_none_of_pos {lv : FilterLevel} (h : 1 ≤ lv.toNat) :
    lv ≠ FilterLevel.levelNone := by
  cases lv <;> simp_all [FilterLevel.toNat]

/-- A level other than `None` has positive rank. -/
theorem level_pos_of_ne_none {lv : FilterLevel} (h : lv ≠ FilterLevel.levelNone) :
    1 ≤ lv.toNat := by
  cases lv <;> simp_all [FilterLevel.toNat]

/-- C2 (amended): raising the level only adds applicable patterns — the
compiled pattern list is monotone in the level (strictly when the level
rank increases), and every pattern name detected at the lower level is
detected at the higher level.  (Monotonicity of "the text is changed by
`FilterText`" fails: see the counterexample.) -/
theorem C2_level_monotonicity_amended (lv lv' : FilterLevel) (en : Bool)
    (cps : List (Option Regex)) (rt : Str) (h : lv.toNat ≤ lv'.toNat) :
    (∀ p, p ∈ compilePatterns ⟨lv, en, cps, rt⟩ →
        p ∈ compilePatterns ⟨lv', en, cps, rt⟩)
    ∧ (∀ p : SensitivePattern, p.level.toNat ≤ lv.toNat → p.level.toNat ≤ lv'.toNat)
    ∧ (∀ t n, n ∈ (NewFilter (some ⟨lv, en, cps, rt⟩)).DetectSensitivePatterns t →
        n ∈ (NewFilter (some ⟨lv', en, cps, rt⟩)).DetectSensitivePatterns t)
    ∧ (lv.toNat < lv'.toNat →
        ∃ p, p ∈ compilePatterns ⟨lv', en, cps, rt⟩ ∧ p.level.toNat ≤ lv'.toNat
          ∧ ¬ p.level.toNat ≤ lv.toNat) := by
  refine ⟨fun p => mem_compilePatterns_mono h, fun p hp => le_trans hp h, ?_, ?_⟩
  · intro t n hn
    by_cases hd : (NewFilter (some ⟨lv, en, cps, rt⟩)).disabled
    · unfold Filter.DetectSensitivePatterns at hn
      rw [if_pos hd] at hn
      simp at hn
    · have hd' : ¬ (NewFilter (some ⟨lv', en, cps, rt⟩)).disabled := by
        intro hx
        rcases hx with hx | hx
        · exact hd (Or.inl hx)
        · have hlv : lv ≠ FilterLevel.levelNone := by
            intro h0
            exact hd (Or.inr h0)
          have h1 : 1 ≤ lv.toNat := level_pos_of_ne_none hlv
          have h1' : lv' = FilterLevel.levelNone := hx
          rw [h1'] at h
          have h0 : FilterLevel.levelNone.toNat = 0 := rfl
          omega
      rw [detect_eq _ t hd] at hn
      rw [detect_eq _ t hd']
      obtain ⟨p, hpf, hname⟩ := List.mem_map.mp hn
      obtain ⟨hpmem, hcond⟩ := List.mem_filter.mp hpf
      refine List.mem_map.mpr ⟨p, List.mem_filter.mpr ⟨mem_compilePatterns_mono h hpmem, ?_⟩, hname⟩
      simp only [Bool.and_eq_true, decide_eq_true_eq] at hcond ⊢
      exact ⟨le_trans hcond.1 h, hcond.2⟩
  · intro hlt
    cases lv' with
    | levelNone => simp [FilterLevel.toNat] at hlt
    | basic =>
      refine ⟨⟨"OpenAI API Key".data, .cat (lit "sk-") (.rep 48 none alnum),
        coerceReplacement rt, .basic⟩, ?_, by exact le_refl _, ?_⟩
      · rw [compilePatterns_eq]
        refine List.mem_append.mpr (Or.inl (List.mem_map.mpr
          ⟨("OpenAI API Key".data, .cat (lit "sk-") (.rep 48 none alnum)), ?_, rfl⟩))
        unfold basicPatterns
        exact List.mem_cons_self _ _
      · show ¬ FilterLevel.basic.toNat ≤ lv.toNat
        omega
    | moderate =>
      refine ⟨⟨"Email in Auth".data,
        .cat (altL [ilit "user", ilit "username", ilit "email", ilit "login"])
          (.cat kvSep (.cat quotesStar (.cat emailR quotesStar))),
        coerceReplacement rt, .moderate⟩, ?_, by exact le_refl _, ?_⟩
      · rw [compilePatterns_eq]
        refine List.mem_append.mpr (Or.inr (List.mem_append.mpr (Or.inl ?_)))
        rw [if_pos (by exact le_refl _)]
        refine List.mem_map.mpr ⟨("Email in Auth".data,
          .cat (altL [ilit "user", ilit "username", ilit "email", ilit "login"])
            (.cat kvSep (.cat quotesStar (.cat emailR quotesStar)))), ?_, rfl⟩
        unfold moderatePatterns
        exact List.mem_cons_self _ _
      · show ¬ FilterLevel.moderate.toNat ≤ lv.toNat
        omega
    | strict =>
      refine ⟨⟨"Potential Secret".data, .cat .wordB (.cat (.rep 32 none alnum) .wordB),
        coerceReplacement rt, .strict⟩, ?_, by exact le_refl _, ?_⟩
      · rw [compilePatterns_eq]
        refine List.mem_append.mpr (Or.inr (List.mem_append.mpr (Or.inr
          (List.mem_append.mpr (Or.inl ?_)))))
        rw [if_pos (by exact le_refl _)]
        refine List.mem_map.mpr ⟨("Potential Secret".data,
          .cat .wordB (.cat (.rep 32 none alnum) .wordB)), ?_, rfl⟩
        unfold strictPatterns
        exact List.mem_cons_self _ _
      · show ¬ FilterLevel.strict.toNat ≤ lv.toNat
        omega

/-- Witness for C2 (amended) at a concrete level pair. -/
theorem C2_level_monotonicity_amended_witness :
    ∃ p, p ∈ compilePatterns ⟨.strict, true, [], "[REDACTED]".data⟩
      ∧ p.level.toNat ≤ FilterLevel.strict.toNat
      ∧ ¬ p.level.toNat ≤ FilterLevel.moderate.toNat :=
  (C2_level_monotonicity_amended .moderate .strict true [] "[REDACTED]".data
    (by decide)).2.2.2 (by decide)

/-- C2 counterexample: with the custom pattern `aaa…a!!` and replacement
text `aaa…a!`, the text `aaa…a!!` (32 `a`s) is changed by `FilterText` at
level Moderate but returned unchanged at the higher level Strict — the
strict pattern `\b[a-zA-Z0-9]{32,}\b` rewrites the text before the custom
pattern runs, and the custom replacement then reconstructs the original. -/
theorem C2_counterexample :
    FilterLevel.moderate.toNat < FilterLevel.strict.toNat
    ∧ (NewFilter (some c2CfgModerate)).FilterText c2Text ≠ c2Text
    ∧ (NewFilter (some c2CfgStrict)).FilterText c2Text = c2Text := by
  refine ⟨by decide, by decide, by decide⟩

/-- C1 (amended): `FilterText` applies the applicable patterns in
sequence, and each replacement step removes the selected leftmost match
`(pre, m, post)` from its position, producing `pre ++ replacementText ++ …`
— but the output as a whole may still contain a substring equal to the
matched text (see the counterexample). -/
theorem C1_match_replaced_in_place_amended :
    (∀ (f : Filter) (t : Str), ¬ f.disabled →
      f.FilterText t = f.patterns.foldl (fun acc p =>
        if p.level.toNat ≤ f.config.level.toNat then
          replaceAll p.pattern p.replacement acc
        else acc) t)
    ∧ (∀ (r : Regex) (rep : Str) (prev : Option Char) (s : Str) (skip : Bool)
        (pre m post : Str), findFrom r prev s skip = some (pre, m, post) →
        s = pre ++ (m ++ post)
        ∧ ∃ tail, replaceAllAux (s.length + 1) r rep prev s skip = pre ++ (rep ++ tail)) := by
  constructor
  · intro f t hd
    unfold Filter.FilterText
    rw [if_neg hd]
  · intro r rep prev s skip pre m post h
    exact ⟨findFrom_decomp s r prev skip pre m post h,
      replaceAllAux_of_some s.length h⟩

/-- Witness for C1 (amended) at a concrete pattern, text and match. -/
theorem C1_match_replaced_in_place_amended_witness :
    ((NewFilter none).FilterText "hi".data = (NewFilter none).patterns.foldl
      (fun acc p =>
        if p.level.toNat ≤ (NewFilter none).config.level.toNat then
          replaceAll p.pattern p.replacement acc
        else acc) "hi".data)
    ∧ ("zabz".data = "z".data ++ ("ab".data ++ "z".data)
      ∧ ∃ tail, replaceAllAux ("zabz".data.length + 1) (lit "ab") "X".data none
          "zabz".data false = "z".data ++ ("X".data ++ tail)) :=
  ⟨C1_match_replaced_in_place_amended.1 (NewFilter none) "hi".data (by decide),
   C1_match_replaced_in_place_amended.2 (lit "ab") "X".data none "zabz".data false
     "z".data "ab".data "z".data (by decide)⟩

/-- C1 counterexample: with the (enabled, Basic-level) custom pattern
`D]` and the default replacement text, the input `xD]x` is filtered to
`x[REDACTED]x`, which still contains the matched substring `D]` — it
reappears across the boundary of the replacement text itself. -/
theorem C1_counterexample :
    (NewFilter (some c1Cfg)).config.enabled = true
    ∧ (NewFilter (some c1Cfg)).config.level = FilterLevel.basic
    ∧ findFrom (lit "D]") none "xD]x".data false
        = some ("x".data, "D]".data, "x".data)
    ∧ (NewFilter (some c1Cfg)).FilterText "xD]x".data = "x[REDACTED]x".data
    ∧ containsSub "D]".data ((NewFilter (some c1Cfg)).FilterText "xD]x".data) = true := by
  have hout : (NewFilter (some c1Cfg)).FilterText "xD]x".data = "x[REDACTED]x".data := by
    decide
  refine ⟨rfl, rfl, by decide, hout, ?_⟩
  rw [hout]
  decide

/-- C8: the two concrete redaction scenarios — the exported OpenAI key is
redacted at level Basic (output contains `[REDACTED]` and not the `sk-…`
key), and `ls -la /home/user` is unchanged at level Strict. -/
theorem C8_concrete_scenarios :
    (NewFilter (some DefaultFilterConfig)).FilterText
        "export OPENAI_API_KEY=sk-abcdefghijklmnopqrstuvwxyzABCDEFGHIJKLMNOPqrst".data
      = "export OPENAI_[REDACTED]".data
    ∧ containsSub "[REDACTED]".data
        ((NewFilter (some DefaultFilterConfig)).FilterText
          "export OPENAI_API_KEY=sk-abcdefghijklmnopqrstuvwxyzABCDEFGHIJKLMNOPqrst".data)
      = true
    ∧ containsSub "sk-abcdefghijklmnopqrstuvwxyzABCDEFGHIJKLMNOPqrst".data
        ((NewFilter (some DefaultFilterConfig)).FilterText
          "export OPENAI_API_KEY=sk-abcdefghijklmnopqrstuvwxyzABCDEFGHIJKLMNOPqrst".data)
      = false
    ∧ (NewFilter (some { DefaultFilterConfig with level := FilterLevel.strict })).FilterText
        "ls -la /home/user".data = "ls -la /home/user".data := by
  have hout : (NewFilter (some DefaultFilterConfig)).FilterText
      "export OPENAI_API_KEY=sk-abcdefghijklmnopqrstuvwxyzABCDEFGHIJKLMNOPqrst".data
      = "export OPENAI_[REDACTED]".data := by
    decide
  refine ⟨hout, ?_, ?_, by decide⟩
  · rw [hout]
    decide
  · rw [hout]
    decide

/-- When the lines are newline-free, the join ends with a newline exactly
when there are at least two lines and the last one is empty. -/
theorem endsNL_joinNL :
    ∀ (ls : List Str), ls ≠ [] → (∀ l ∈ ls, '\n' ∉ l) →
      (endsNL (joinNL ls) = true ↔ (2 ≤ ls.length ∧ ls.getLast? = some [])) := by
  intro ls
  induction ls with
  | nil => intro h; exact absurd rfl h
  | cons l ls' ih =>
    intro _ hnl
    cases ls' with
    | nil =>
      show endsNL (joinNL [l]) = true ↔ _
      have hj : joinNL [l] = l := rfl
      rw [hj, endsNL_of_no_newline (hnl l (by simp))]
      simp
    | cons m ms =>
      have hj : joinNL (l :: m :: ms) = l ++ '\n' :: joinNL (m :: ms) := rfl
      rw [hj]
      have h1 : endsNL (l ++ '\n' :: joinNL (m :: ms))
          = endsNL ('\n' :: joinNL (m :: ms)) := by
        unfold endsNL
        rw [List.getLast?_append_of_ne_nil _ (by simp)]
      rw [h1]
      cases hjm : joinNL (m :: ms) with
      | nil =>
        have hm : m = [] ∧ ms = [] := by
          cases ms with
          | nil => exact ⟨by simpa [joinNL] using hjm, rfl⟩
          | cons k ks => simp [joinNL] at hjm
        obtain ⟨rfl, rfl⟩ := hm
        simp [endsNL]
      | cons d ds =>
        rw [← hjm, endsNL_cons_of_ne_nil '\n' (by simp [hjm]),
          ih (by simp) (fun x hx => hnl x (by simp [hx]))]
        simp only [List.length_cons, List.getLast?_cons_cons]
        constructor
        · rintro ⟨hlen, hlast⟩
          exact ⟨by omega, hlast⟩
        · rintro ⟨hlen, hlast⟩
          refine ⟨?_, hlast⟩
          cases ms with
          | nil =>
            simp at hlast
            subst hlast
            simp [joinNL] at hjm
          | cons k ks => simp

/-- `FilterText` maps the empty line to the empty line when no applicable
pattern matches the empty string, and a non-empty line to a non-empty line
(the replacement text is never empty). -/
theorem FilterText_nil_iff (cfg : FilterConfig) (l : Str)
    (hempty : ∀ p ∈ compilePatterns cfg, p.level.toNat ≤ cfg.level.toNat →
      matchesIn p.pattern [] = false) :
    (NewFilter (some cfg)).FilterText l = [] ↔ l = [] := by
  constructor
  · intro h
    by_contra hne
    exact FilterText_ne_nil
      (fun p hp => by
        rw [replacement_of_mem_compilePatterns hp]
        exact coerceReplacement_ne_nil _) hne h
  · rintro rfl
    exact FilterText_of_no_match _ [] hempty

/-- C6 (amended): `FilterMultilineText` is exactly split-filter-join (also
when the filter is disabled, by the split/join round-trip); and provided
the (coerced) replacement text contains no newline and no applicable
pattern matches the empty string, the output ends with a newline iff the
input does, and the empty input maps to the empty output.  Without those
provisos the trailing-newline property fails (see the counterexample). -/
theorem C6_multiline_split_join_amended :
    (∀ (f : Filter) (t : Str),
      f.FilterMultilineText t = joinNL (f.FilterLines (splitNL t)))
    ∧ (∀ (cfg : FilterConfig) (t : Str),
        ¬ (cfg.enabled = false ∨ cfg.level = FilterLevel.levelNone) →
        '\n' ∉ coerceReplacement cfg.replacementText →
        (∀ p ∈ compilePatterns cfg, p.level.toNat ≤ cfg.level.toNat →
          matchesIn p.pattern [] = false) →
        endsNL ((NewFilter (some cfg)).FilterMultilineText t) = endsNL t
        ∧ (t = [] → (NewFilter (some cfg)).FilterMultilineText t = [])) := by
  constructor
  · intro f t
    unfold Filter.FilterMultilineText Filter.FilterLines
    by_cases hd : f.disabled
    · rw [if_pos hd, if_pos hd, joinNL_splitNL]
    · rw [if_neg hd, if_neg hd]
  · intro cfg t hcd hrnl hempty
    have hd : ¬ (NewFilter (some cfg)).disabled := hcd
    have hout : (NewFilter (some cfg)).FilterMultilineText t
        = joinNL ((splitNL t).map (NewFilter (some cfg)).FilterText) := by
      unfold Filter.FilterMultilineText Filter.FilterLines
      rw [if_neg hd, if_neg hd]
    have hrepAll : ∀ p ∈ (NewFilter (some cfg)).patterns,
        p.replacement = coerceReplacement cfg.replacementText :=
      fun p hp => replacement_of_mem_compilePatterns hp
    have hNoNL : ∀ l : Str, '\n' ∉ l → '\n' ∉ (NewFilter (some cfg)).FilterText l := by
      intro l hl hmem
      rcases mem_FilterText hrepAll hmem with hc | hc
      · exact hl hc
      · exact hrnl hc
    constructor
    · rw [hout]
      have hmapnl : ∀ l ∈ (splitNL t).map (NewFilter (some cfg)).FilterText, '\n' ∉ l := by
        intro l hl
        obtain ⟨line, hline, rfl⟩ := List.mem_map.mp hl
        exact hNoNL line (mem_splitNL_no_newline t line hline)
      have hLHS := endsNL_joinNL ((splitNL t).map (NewFilter (some cfg)).FilterText)
        (by simp [splitNL_ne_nil t]) hmapnl
      have hlen : ((splitNL t).map (NewFilter (some cfg)).FilterText).length
          = (splitNL t).length := List.length_map _ _
      have hlast : (((splitNL t).map (NewFilter (some cfg)).FilterText).getLast? = some [])
          ↔ ((splitNL t).getLast? = some []) := by
        rw [List.getLast?_map]
        cases hl : (splitNL t).getLast? with
        | none => simp
        | some last =>
          simp only [Option.map_some', Option.some.injEq]
          exact FilterText_nil_iff cfg last hempty
      have hRHS : endsNL t = true ↔ (2 ≤ (splitNL t).length ∧ (splitNL t).getLast? = some []) := by
        constructor
        · intro het
          refine ⟨?_, (splitNL_getLast_eq_nil_iff t).mpr (Or.inr het)⟩
          rw [two_le_splitNL_length_iff]
          unfold endsNL at het
          exact List.mem_of_mem_getLast? (by rw [beq_iff_eq.mp het]; rfl)
        · rintro ⟨hlen2, hlast2⟩
          rcases (splitNL_getLast_eq_nil_iff t).mp hlast2 with rfl | het
          · simp [splitNL] at hlen2
          · exact het
      have hiff : (endsNL (joinNL ((splitNL t).map (NewFilter (some cfg)).FilterText)) = true)
          ↔ (endsNL t = true) := by
        rw [hLHS, hlen, hlast, hRHS]
      cases hb1 : endsNL (joinNL ((splitNL t).map (NewFilter (some cfg)).FilterText)) <;>
        cases hb2 : endsNL t <;> simp_all
    · rintro rfl
      rw [hout]
      show joinNL [(NewFilter (some cfg)).FilterText []] = []
      rw [FilterText_of_no_match _ [] hempty]
      rfl

/-- Witness for C6 (amended) at the default configuration. -/
theorem C6_multiline_split_join_amended_witness :
    endsNL ((NewFilter (some DefaultFilterConfig)).FilterMultilineText "hi\n".data)
      = endsNL "hi\n".data
    ∧ ("hi\n".data = ([] : Str) →
        (NewFilter (some DefaultFilterConfig)).FilterMultilineText "hi\n".data = []) :=
  C6_multiline_split_join_amended.2 DefaultFilterConfig "hi\n".data
    (by decide) (by decide) (by decide)

/-- C6 counterexample: with the custom pattern `b` and replacement text
`X\n` (a newline inside the replacement), the input `b` — which does not
end with a newline — is mapped by `FilterMultilineText` to `X\n`, which
does; so trailing-newline presence is not preserved in general. -/
theorem C6_counterexample :
    (NewFilter (some c6Cfg)).FilterMultilineText "b".data = "X\n".data
    ∧ endsNL ((NewFilter (some c6Cfg)).FilterMultilineText "b".data) = true
    ∧ endsNL "b".data = false := by
  have hout : (NewFilter (some c6Cfg)).FilterMultilineText "b".data = "X\n".data := by
    decide
  refine ⟨hout, ?_, by decide⟩
  rw [hout]
  decide

/-- `write` does not change the configured maximum segment size. -/
theorem write_maxSegmentSize (st : RotatorState) (n : Nat) :
    (st.write n).maxSegmentSize = st.maxSegmentSize := by
  unfold RotatorState.write
  cases st.segments.getLast? with
  | none => rfl
  | some cur =>
    dsimp only
    split <;> rfl

/-- A fresh rotator satisfies the invariant. -/
theorem rotatorInv_init (max : Nat) : RotatorInv (RotatorState.init max) :=
  ⟨[], ⟨0, 0, false⟩, rfl, rfl, Nat.zero_le max, by simp⟩

/-- A write sequence does not change the configured maximum segment size. -/
theorem run_maxSegmentSize :
    ∀ (ws : List Nat) (st : RotatorState),
      (st.run ws).maxSegmentSize = st.maxSegmentSize := by
  intro ws
  induction ws with
  | nil => intro st; rfl
  | cons n ws ih =>
    intro st
    show ((st.write n).run ws).maxSegmentSize = _
    rw [ih (st.write n), write_maxSegmentSize]

/-- C9 (amended): after any sequence of writes each of size at most
`maxSegmentSize`, every sealed segment's size is at most
`maxSegmentSize` and exactly one segment is unsealed; and whenever a
write would overflow the current segment, it seals it and opens a fresh
segment (with the next sequence number) holding the written bytes.
(Without the per-write bound the sealed-size bound fails: see the
counterexample.) -/
theorem C9_rotation_bound_amended (max : Nat) (ws : List Nat)
    (hb : ∀ n ∈ ws, n ≤ max) :
    (∀ sg ∈ ((RotatorState.init max).run ws).segments,
        sg.isSealed = true → sg.sizeBytes ≤ max)
    ∧ (((RotatorState.init max).run ws).segments.filter
        (fun sg => sg.isSealed == false)).length = 1
    ∧ (∀ (st : RotatorState) (cur : Segment) (n : Nat),
        st.segments.getLast? = some cur →
        st.maxSegmentSize < cur.sizeBytes + n →
        (st.write n).segments = st.segments.dropLast
          ++ [{ cur with isSealed := true }, ⟨n, cur.sequenceNumber + 1, false⟩]) := by
  have hinv : RotatorInv ((RotatorState.init max).run ws) :=
    rotatorInv_run (rotatorInv_init max) ws hb
  have hmax : ((RotatorState.init max).run ws).maxSegmentSize = max :=
    run_maxSegmentSize ws (RotatorState.init max)
  obtain ⟨sealedPart, cur, hsegs, hcur, hsize, hsealed⟩ := hinv
  refine ⟨?_, ?_, ?_⟩
  · intro sg hsg _
    rw [hsegs] at hsg
    rcases List.mem_append.mp hsg with hm | hm
    · rw [← hmax]
      exact (hsealed sg hm).2
    · simp at hm
      subst hm
      rw [← hmax]
      exact hsize
  · rw [hsegs, List.filter_append]
    have h1 : sealedPart.filter (fun sg => sg.isSealed == false) = [] := by
      rw [List.filter_eq_nil_iff]
      intro sg hm
      rw [(hsealed sg hm).1]
      simp
    have h2 : List.filter (fun sg => sg.isSealed == false) [cur] = [cur] := by
      simp [List.filter, hcur]
    rw [h1, h2]
    rfl
  · intro st c n hlast hover
    unfold RotatorState.write
    rw [hlast]
    dsimp only
    rw [if_pos hover]

/-- Witness for C9 (amended): three writes of 3 bytes with a 4-byte bound. -/
theorem C9_rotation_bound_amended_witness :
    (∀ sg ∈ ((RotatorState.init 4).run [3, 3, 3]).segments,
        sg.isSealed = true → sg.sizeBytes ≤ 4)
    ∧ (((RotatorState.init 4).run [3, 3, 3]).segments.filter
        (fun sg => sg.isSealed == false)).length = 1 := by
  have h := C9_rotation_bound_amended 4 [3, 3, 3] (by decide)
  exact ⟨h.1, h.2.1⟩

/-- C9 counterexample: a single oversized write (8 bytes against a 4-byte
bound) is stored in a fresh segment that is later sealed at size 8 > 4;
the claim's sealed-size bound fails without a per-write size bound. -/
theorem C9_counterexample :
    ((RotatorState.init 4).run [8, 1]).segments
      = [⟨0, 0, true⟩, ⟨8, 1, true⟩, ⟨1, 2, false⟩]
    ∧ (⟨8, 1, true⟩ : Segment).isSealed = true
    ∧ 4 < (⟨8, 1, true⟩ : Segment).sizeBytes := by
  exact ⟨by decide, rfl, by decide⟩

end SmartSuggestion
